import Mathlib

/-!
Verification development for the pgantics SQL expression / statement builder.

The Python sources under `src/pgantics/` are shallowly embedded:
* `entities/expression.py` — the expression algebra (`Expr` and `build`),
* `entities/column.py` — the `ColumnInfo`-based condition classes,
* `query/select.py`, `query/insert.py`, `query/update.py`, `query/delete.py` —
  the four statement builders,
* `utils.py` — the `format_query` debug helper.

Python parameter values are modelled by `Value` (ints, strings, booleans and
`None`); fallible builds return `Except String`; the mutating builders return
their post-call state explicitly.
-/

namespace Pgantics

/-- A Python value usable as a query parameter (the subset exercised by the
pgantics sources: ints, strings, booleans and `None`). -/
inductive Value where
  | int (n : Int)
  | str (s : String)
  | bool (b : Bool)
  | none
  deriving DecidableEq

/-- A decimal digit character (0-9; indices above nine only ever receive 9,
via `% 10`). -/
def decDigit : Nat → Char
  | 0 => '0' | 1 => '1' | 2 => '2' | 3 => '3' | 4 => '4'
  | 5 => '5' | 6 => '6' | 7 => '7' | 8 => '8' | _ => '9'

/-- The decimal digits of a natural number, most significant first
(fuelled; any fuel above the digit count is enough). -/
def natDecimal : Nat → Nat → List Char
  | 0, _ => []
  | fuel + 1, n =>
      if n < 10 then [decDigit n] else natDecimal fuel (n / 10) ++ [decDigit (n % 10)]

/-- Python `repr` restricted to `Value`: decimal notation for ints,
quotes around strings (accurate for strings containing no quotes,
backslashes or control characters), `True`/`False`/`None`. -/
def pyRepr : Value → String
  | .int (Int.ofNat m) => String.mk (natDecimal (m + 1) m)
  | .int (Int.negSucc m) => "-" ++ String.mk (natDecimal (m + 2) (m + 1))
  | .str s => "'" ++ s ++ "'"
  | .bool true => "True"
  | .bool false => "False"
  | .none => "None"

/-- `enums.Operator` (src/pgantics/enums.py). -/
inductive Operator where
  | eq | neq | lt | lte | gt | gte
  | like | ilike | inOp | notIn | isNull | isNotNull | between | notBetween
  | orOp | andOp
  deriving DecidableEq

/-- The `.value` string of each `Operator` member. -/
def Operator.val : Operator → String
  | .eq => "=" | .neq => "!=" | .lt => "<" | .lte => "<=" | .gt => ">" | .gte => ">="
  | .like => "LIKE" | .ilike => "ILIKE" | .inOp => "IN" | .notIn => "NOT IN"
  | .isNull => "IS NULL" | .isNotNull => "IS NOT NULL"
  | .between => "BETWEEN" | .notBetween => "NOT BETWEEN"
  | .orOp => "OR" | .andOp => "AND"

/-- `enums.BinaryOperator` (the members used by the `Expression` arithmetic
operators; the bitwise/string members exist but behave identically in build). -/
inductive BinaryOperator where
  | add | sub | mul | div | mod | pow
  | bitAnd | bitOr | bitXor | shiftLeft | shiftRight | concat
  deriving DecidableEq

/-- The `.value` string of each `BinaryOperator` member. -/
def BinaryOperator.val : BinaryOperator → String
  | .add => "+" | .sub => "-" | .mul => "*" | .div => "/" | .mod => "%" | .pow => "^"
  | .bitAnd => "&" | .bitOr => "|" | .bitXor => "#"
  | .shiftLeft => "<<" | .shiftRight => ">>" | .concat => "||"

/-- `enums.Order` (ORDER BY directions); `str()` of a member is its value. -/
inductive Order where
  | asc | desc
  deriving DecidableEq

/-- The string rendering of an `Order` member. -/
def Order.val : Order → String
  | .asc => "ASC"
  | .desc => "DESC"

mutual
/-- The closed set of expression variants of `entities/expression.py`.
Each constructor mirrors one concrete `BaseExpression` subclass:
`Expression(sql, params)`, `LiteralExpression(value)`, `NullExpression`,
`Alias`, `BinaryExpression`, `UnaryExpression`, `FunctionExpression`
(whose stored name is already upper-cased by its `__init__`),
`CaseExpression`, `Condition`, `ConditionTree`, `NotCondition`,
`OrderExpression`. Argument lists and optional sub-expressions use the
mutually defined `ExprList` / `WhenList` / `OptExpr` (isomorphic to
`List Expr` / `List (Expr × Expr)` / `Option Expr`). -/
inductive Expr where
  | expression (sql : String) (params : List Value)
  | literalExpression (value : Value)
  | nullExpression
  | aliasExpression (e : Expr) (name : String)
  | binaryExpression (left : Expr) (operator : BinaryOperator) (right : Expr)
  | unaryExpression (operator : String) (operand : Expr)
  | functionExpression (name : String) (args : ExprList) (distinct : Bool)
      (filterCondition : OptExpr) (overClause : Option String)
  | caseExpression (whenClauses : WhenList) (elseClause : OptExpr)
  | condition (left : Expr) (operator : Operator) (right : Expr)
  | conditionTree (operator : String) (left : Expr) (right : Expr)
  | notCondition (c : Expr)
  | orderExpression (e : Expr) (direction : Order)

/-- A list of expressions (`FunctionExpression.args`). -/
inductive ExprList where
  | nil
  | cons (head : Expr) (tail : ExprList)

/-- A list of `(condition, value)` pairs (`CaseExpression.when_clauses`). -/
inductive WhenList where
  | nil
  | cons (c : Expr) (v : Expr) (tail : WhenList)

/-- An optional expression (`Optional[BaseExpression]` fields). -/
inductive OptExpr where
  | none
  | some (e : Expr)
end

/-- Python `' '.join(parts)` — the final joining step of every builder. -/
def joinSp : List String → String
  | [] => ""
  | [x] => x
  | x :: y :: t => x ++ " " ++ joinSp (y :: t)

/-- Python `', '.join(parts)`. -/
def joinComma : List String → String
  | [] => ""
  | [x] => x
  | x :: y :: t => x ++ ", " ++ joinComma (y :: t)

/-- Python `' AND '.join(parts)`. -/
def joinAnd : List String → String
  | [] => ""
  | [x] => x
  | x :: y :: t => x ++ " AND " ++ joinAnd (y :: t)

/-- `', '.join(['%s'] * n)` — the placeholder list used by `in_`/`not_in_`. -/
def placeholders (n : Nat) : String :=
  String.intercalate ", " (List.replicate n "%s")

mutual
/-- `build()` of `entities/expression.py`, bottom-up; `CaseExpression.build`
is the only raising variant (`ValueError` on zero WHEN clauses). -/
def build : Expr → Except String (String × List Value)
  | .expression sql params => .ok (sql, params)
  | .literalExpression v =>
      match v with
      | Value.none => .ok ("NULL", [])
      | _ => .ok ("%s", [v])
  | .nullExpression => .ok ("NULL", [])
  | .aliasExpression e a => do
      let (s, p) ← build e
      .ok (s ++ " AS " ++ a, p)
  | .binaryExpression l op r => do
      let (ls, lp) ← build l
      let (rs, rp) ← build r
      .ok ("(" ++ ls ++ " " ++ op.val ++ " " ++ rs ++ ")", lp ++ rp)
  | .unaryExpression op e => do
      let (s, p) ← build e
      .ok (op ++ "(" ++ s ++ ")", p)
  | .functionExpression name args distinct fc oc => do
      let (argSqls, argParams) ← buildArgs args
      let argsPart := joinComma argSqls
      let argsPart := if distinct ∧ argsPart ≠ "" then "DISTINCT " ++ argsPart else argsPart
      let sql := name ++ "(" ++ argsPart ++ ")"
      let (sql, params) ←
        match fc with
        | .none => pure (sql, argParams)
        | .some c => do
            let (fs, fp) ← build c
            pure (sql ++ " FILTER (WHERE " ++ fs ++ ")", argParams ++ fp)
      let sql :=
        match oc with
        | Option.none => sql
        | Option.some o => sql ++ " OVER (" ++ o ++ ")"
      .ok (sql, params)
  | .caseExpression whens els =>
      match whens with
      | .nil => .error "CASE expression must have at least one WHEN clause"
      | .cons c v t => do
          let (parts, params) ← buildWhens (.cons c v t)
          let (parts, params) ←
            match els with
            | .none => pure (parts, params)
            | .some e => do
                let (es, ep) ← build e
                pure (parts ++ ["ELSE " ++ es], params ++ ep)
          .ok (joinSp (["CASE"] ++ parts ++ ["END"]), params)
  | .condition l op r => do
      let (ls, lp) ← build l
      let (rs, rp) ← build r
      if op = Operator.isNull ∨ op = Operator.isNotNull then
        .ok (ls ++ " " ++ (if op = Operator.isNull then "IS NULL" else "IS NOT NULL"), lp)
      else
        .ok (ls ++ " " ++ op.val ++ " " ++ rs, lp ++ rp)
  | .conditionTree op l r => do
      let (ls, lp) ← build l
      let (rs, rp) ← build r
      .ok ("(" ++ ls ++ ") " ++ op ++ " (" ++ rs ++ ")", lp ++ rp)
  | .notCondition c => do
      let (s, p) ← build c
      .ok ("NOT (" ++ s ++ ")", p)
  | .orderExpression e dir => do
      let (s, p) ← build e
      .ok (s ++ " " ++ dir.val, p)

/-- Builds function arguments in order, accumulating sql fragments and params
(the `for arg in self.args` loop of `FunctionExpression.build`). -/
def buildArgs : ExprList → Except String (List String × List Value)
  | .nil => .ok ([], [])
  | .cons e t => do
      let (s, p) ← build e
      let (ss, ps) ← buildArgs t
      .ok (s :: ss, p ++ ps)

/-- Builds the WHEN clauses of a CASE expression in order
(the `for condition, value in self.when_clauses` loop). -/
def buildWhens : WhenList → Except String (List String × List Value)
  | .nil => .ok ([], [])
  | .cons c v t => do
      let (cs, cp) ← build c
      let (vs, vp) ← build v
      let (ss, ps) ← buildWhens t
      .ok (("WHEN " ++ cs ++ " THEN " ++ vs) :: ss, cp ++ vp ++ ps)
end

/-- The argument type of `Expression.in_` / `Expression.not_in_`:
either a `BaseExpression` or a sequence of plain values. -/
inductive InArg where
  | exprArg (e : Expr)
  | seqArg (vs : List Value)

/-- `Expression.in_` (src/pgantics/entities/expression.py lines 103-114):
expressions wrap directly; an empty sequence short-circuits to
`Condition(LiteralExpression('1'), EQ, LiteralExpression('0'))`;
a non-empty sequence builds one placeholder per element. -/
def Expr.in_ (self : Expr) : InArg → Expr
  | .exprArg e => .condition self .inOp e
  | .seqArg [] =>
      .condition (.literalExpression (.str "1")) .eq (.literalExpression (.str "0"))
  | .seqArg vs =>
      .condition self .inOp (.expression ("(" ++ placeholders vs.length ++ ")") vs)

/-- `Expression.not_in_` (lines 116-127), symmetric with `1`/`1` on empty. -/
def Expr.not_in_ (self : Expr) : InArg → Expr
  | .exprArg e => .condition self .notIn e
  | .seqArg [] =>
      .condition (.literalExpression (.str "1")) .eq (.literalExpression (.str "1"))
  | .seqArg vs =>
      .condition self .notIn (.expression ("(" ++ placeholders vs.length ++ ")") vs)

/-- A value that is either a `BaseExpression` or a plain Python value
(the `Any` inputs coerced by `to_expression`). -/
inductive ExprOrValue where
  | expr (e : Expr)
  | val (v : Value)

/-- `to_expression` (expression.py lines 542-546): expressions pass through,
anything else becomes a `LiteralExpression`. -/
def to_expression : ExprOrValue → Expr
  | .expr e => e
  | .val v => .literalExpression v

/-- `Expression.__eq__`: `Condition(self, Operator.EQ, to_expression(other))`. -/
def Expr.eq_ (self : Expr) (other : ExprOrValue) : Expr :=
  .condition self .eq (to_expression other)

/-- `Condition.__and__`: `ConditionTree('AND', self, other)`. -/
def Expr.and_ (self other : Expr) : Expr :=
  .conditionTree "AND" self other

/-- `Condition.__or__`: `ConditionTree('OR', self, other)`. -/
def Expr.or_ (self other : Expr) : Expr :=
  .conditionTree "OR" self other

/-- `Condition.__invert__`: `NotCondition(self)`. -/
def Expr.invert (self : Expr) : Expr :=
  .notCondition self

/-- `ColumnInfo` of `entities/column.py`, restricted to the data its
`__str__` and `Condition.build` use: the owning table's `Meta.table_name`
(via `_source_table`) and `_source_field`. -/
structure ColumnInfo where
  sourceTable : String
  sourceField : String
  deriving DecidableEq

/-- `ColumnInfo.__str__`: `"<table_name>.<field_name>"`. -/
def ColumnInfo.str (c : ColumnInfo) : String :=
  c.sourceTable ++ "." ++ c.sourceField

/-- The comparator slot of `column.py`'s `Condition` (typed `Any` in the
source): a plain value (Python `None` is `Comparator.value Value.none`),
a `list`/`tuple` of values, or another `ColumnInfo`. String comparators,
which Python would also treat as sequences, are not modelled (the claims
never produce them). -/
inductive Comparator where
  | value (v : Value)
  | seq (vs : List Value)
  | column (c : ColumnInfo)

/-- The `Condition` / `ConditionTree` / `NotCondition` classes of
`entities/column.py` (a second condition system, parallel to the one in
`expression.py`). -/
inductive ColumnCondition where
  | cond (column : ColumnInfo) (operator : Operator) (comparator : Comparator)
  | tree (joiner : String) (left : ColumnCondition) (right : ColumnCondition)
  | notCond (c : ColumnCondition)

/-- `column.py` `Condition.build` (lines 166-183) and the `ConditionTree` /
`NotCondition` builds, with the source's dispatch order. In the final
fallthrough the source passes the comparator itself as the single
parameter; for a sequence comparator under an operator other than
IN/NOT IN (unreachable through the pgantics API, which pairs sequences
only with IN/NOT IN) the parameter would be the list object itself, which
`Value` cannot represent, so the model keeps the element list there. -/
def ColumnCondition.build : ColumnCondition → String × List Value
  | .cond col op cmp =>
      match op, cmp with
      | .inOp, .seq vs => (col.str ++ " IN (" ++ placeholders vs.length ++ ")", vs)
      | .notIn, .seq vs => (col.str ++ " NOT IN (" ++ placeholders vs.length ++ ")", vs)
      | .isNull, .value Value.none => (col.str ++ " IS NULL", [])
      | .isNotNull, .value Value.none => (col.str ++ " IS NOT NULL", [])
      | _, .column other => (col.str ++ " " ++ op.val ++ " " ++ other.str, [])
      | _, .value v => (col.str ++ " " ++ op.val ++ " %s", [v])
      | _, .seq vs => (col.str ++ " " ++ op.val ++ " %s", vs)
  | .tree j l r =>
      let (ls, lp) := build l
      let (rs, rp) := build r
      ("(" ++ ls ++ ") " ++ j ++ " (" ++ rs ++ ")", lp ++ rp)
  | .notCond c =>
      let (s, p) := build c
      ("NOT (" ++ s ++ ")", p)

/-- `ColumnInfo.in_` (column.py lines 74-75): `Condition(self, IN, item)`,
with no empty-sequence short-circuit. -/
def ColumnInfo.in_cond (c : ColumnInfo) (item : List Value) : ColumnCondition :=
  .cond c .inOp (.seq item)

/-- Substring test (used to state "the SQL contains the fragment ..."). -/
def containsSub (s pat : String) : Bool :=
  s.data.tails.any (fun t => pat.data.isPrefixOf t)

/-- `enums.JoinType`. -/
inductive JoinType where
  | inner | left | right | full | cross | natural
  deriving DecidableEq

/-- The `.value` string of each `JoinType` member. -/
def JoinType.val : JoinType → String
  | .inner => "INNER" | .left => "LEFT" | .right => "RIGHT"
  | .full => "FULL OUTER" | .cross => "CROSS" | .natural => "NATURAL"

/-- Whether a join kind is in `(JoinType.NATURAL, JoinType.CROSS)` — the
membership test `Join._build` dispatches on. -/
def JoinType.noOn : JoinType → Bool
  | .inner => false | .left => false | .right => false | .full => false
  | .cross => true | .natural => true

/-- `select.py`'s `Join`: the joined table's `Meta.table_name`, the join
kind, and the optional ON condition. -/
structure Join where
  tableName : String
  joinType : JoinType
  onCondition : Option Expr

/-- `Join._build` (select.py lines 336-348): NATURAL/CROSS render with no
ON part (any attached condition is ignored); other kinds raise when no ON
condition is attached, and otherwise render `ON <condition>`. -/
def Join.build (j : Join) : Except String (String × List Value) :=
  if j.joinType.noOn then
    .ok (j.joinType.val ++ " JOIN " ++ j.tableName, [])
  else
    match j.onCondition with
    | Option.none => .error ("JOIN with " ++ j.tableName ++ " is missing ON condition")
    | Option.some c => do
        let (cs, ps) ← Pgantics.build c
        .ok (j.joinType.val ++ " JOIN " ++ j.tableName ++ " ON " ++ cs, ps)

/-- An entry of `Select._select_columns`: `Select.build` dispatches on
`isinstance(col, ColumnInfo)` (rendered via `str(col)`, no parameters)
versus `isinstance(col, BaseExpression)` (built). -/
inductive SelCol where
  | columnInfo (c : ColumnInfo)
  | exprCol (e : Expr)

/-- The select-column loop of `Select.build` (lines 59-72). -/
def buildSelectCols : List SelCol → Except String (List String × List Value)
  | [] => .ok ([], [])
  | .columnInfo c :: t => do
      let (ss, ps) ← buildSelectCols t
      .ok (c.str :: ss, ps)
  | .exprCol e :: t => do
      let (s, p) ← build e
      let (ss, ps) ← buildSelectCols t
      .ok (s :: ss, p ++ ps)

/-- The join loop of `Select.build` (lines 83-86). -/
def buildJoins : List Join → Except String (List String × List Value)
  | [] => .ok ([], [])
  | j :: t => do
      let (s, p) ← j.build
      let (ss, ps) ← buildJoins t
      .ok (s :: ss, p ++ ps)

/-- The WHERE/HAVING loops: each condition built and wrapped in parens. -/
def buildCondList : List Expr → Except String (List String × List Value)
  | [] => .ok ([], [])
  | c :: t => do
      let (cs, cp) ← build c
      let (ss, ps) ← buildCondList t
      .ok (("(" ++ cs ++ ")") :: ss, cp ++ ps)

/-- The GROUP BY / ORDER BY loops: each expression built unwrapped. -/
def buildExprList : List Expr → Except String (List String × List Value)
  | [] => .ok ([], [])
  | e :: t => do
      let (es, ep) ← build e
      let (ss, ps) ← buildExprList t
      .ok (es :: ss, ep ++ ps)

/-- The accumulated state of `query/select.py`'s `Select` builder; the
`table` slot keeps only `Meta.table_name`, the one datum `build` reads. -/
structure Select where
  tableName : String
  selectColumns : List SelCol := []
  joins : List Join := []
  whereConditions : List Expr := []
  orderByExpressions : List Expr := []
  limitValue : Option Int := Option.none
  offsetValue : Option Int := Option.none
  distinct : Bool := false
  groupByExpressions : List Expr := []
  havingConditions : List Expr := []

/-- `Select.build` (select.py lines 40-134): SELECT [DISTINCT] cols → FROM →
JOIN* → WHERE → GROUP BY → HAVING → ORDER BY → LIMIT → OFFSET, parameters
accumulated in that textual order, the final string space-joined. -/
def Select.build (q : Select) : Except String (String × List Value) := do
  let (selPart, selParams) ←
    match q.selectColumns with
    | [] =>
        pure ((if q.distinct then "SELECT DISTINCT" else "SELECT") ++ " *", ([] : List Value))
    | c :: t => do
        let (ss, ps) ← buildSelectCols (c :: t)
        pure ((if q.distinct then "SELECT DISTINCT" else "SELECT") ++ " " ++ joinComma ss, ps)
  let (joinParts, joinParams) ← buildJoins q.joins
  let (whereParts, whereParams) ←
    match q.whereConditions with
    | [] => pure (([] : List String), ([] : List Value))
    | c :: t => do
        let (ss, ps) ← buildCondList (c :: t)
        pure (["WHERE " ++ joinAnd ss], ps)
  let (groupParts, groupParams) ←
    match q.groupByExpressions with
    | [] => pure (([] : List String), ([] : List Value))
    | c :: t => do
        let (ss, ps) ← buildExprList (c :: t)
        pure (["GROUP BY " ++ joinComma ss], ps)
  let (havingParts, havingParams) ←
    match q.havingConditions with
    | [] => pure (([] : List String), ([] : List Value))
    | c :: t => do
        let (ss, ps) ← buildCondList (c :: t)
        pure (["HAVING " ++ joinAnd ss], ps)
  let (orderParts, orderParams) ←
    match q.orderByExpressions with
    | [] => pure (([] : List String), ([] : List Value))
    | c :: t => do
        let (ss, ps) ← buildExprList (c :: t)
        pure (["ORDER BY " ++ joinComma ss], ps)
  let (limitParts, limitParams) :=
    match q.limitValue with
    | Option.none => (([] : List String), ([] : List Value))
    | Option.some n => (["LIMIT %s"], [Value.int n])
  let (offsetParts, offsetParams) :=
    match q.offsetValue with
    | Option.none => (([] : List String), ([] : List Value))
    | Option.some n => (["OFFSET %s"], [Value.int n])
  .ok (joinSp ([selPart, "FROM " ++ q.tableName] ++ joinParts ++ whereParts ++ groupParts
        ++ havingParts ++ orderParts ++ limitParts ++ offsetParts),
      selParams ++ joinParams ++ whereParams ++ groupParams ++ havingParams
        ++ orderParams ++ limitParams ++ offsetParams)

/-- The RETURNING section shared by Insert/Update/Delete builds:
skipped when `self._returning` is falsy (`None` or `[]`), `RETURNING *`
when `'*'` is among the columns, else the comma-joined column list. -/
def returningParts : Option (List String) → List String
  | Option.some (x :: t) =>
      if (x :: t).contains "*" then ["RETURNING *"] else ["RETURNING " ++ joinComma (x :: t)]
  | _ => []

/-- Python `dict.update`: existing keys are overwritten in place, new keys
are appended in update order. -/
def dictUpdate {α : Type} (d u : List (String × α)) : List (String × α) :=
  u.foldl
    (fun acc kv =>
      if acc.any (fun (p : String × α) => p.1 == kv.1) then
        acc.map (fun (p : String × α) => if p.1 == kv.1 then (p.1, kv.2) else p)
      else acc ++ [kv])
    d

/-- Ordered-dict lookup (`dict.get`, without default). -/
def lookup {α : Type} (d : List (String × α)) (k : String) : Option α :=
  (d.find? (fun (p : String × α) => p.1 == k)).map (fun (p : String × α) => p.2)

/-- A pgantics `Table` instance as the builders consume it: the
`Meta.table_name`, the `model_dump(mode='json')` output in field order,
the `__pgantics_fields__` keys, and the primary-key field names
(the fields whose `sql_data` carries `primary_key=True`). -/
structure TableInst where
  tableName : String
  row : List (String × Value)
  dbFields : List String
  pks : List String

/-- `update.py`'s `UpdateJoin` (and `delete.py`'s `DeleteJoin`): a joined
table name with an optional ON condition. -/
structure UpdateJoin where
  tableName : String
  onCondition : Option Expr

/-- The accumulated state of `query/delete.py`'s `Delete` builder. -/
structure Delete where
  tableName : String
  whereConditions : List Expr := []
  joins : List UpdateJoin := []
  returning : Option (List String) := Option.none

/-- `Delete.build` (delete.py lines 23-73). With joins it renders a USING
clause and first appends each join's (truthy) ON condition to
`self._where_conditions` — a mutation, so the post-call state is returned
alongside the result. With the resulting condition list empty it raises
the missing-WHERE `ValueError`. -/
def Delete.build (d : Delete) : Except String ((String × List Value) × Delete) :=
  let (head, whereConds) :=
    match d.joins with
    | [] => (["DELETE FROM " ++ d.tableName], d.whereConditions)
    | js =>
        (["DELETE FROM " ++ d.tableName, "USING " ++ joinComma (js.map (fun (j : UpdateJoin) => j.tableName))],
         d.whereConditions ++ js.filterMap (fun (j : UpdateJoin) => j.onCondition))
  match whereConds with
  | [] =>
      .error "DELETE query must include a WHERE clause. Use delete_all() for intentional full table deletion."
  | c :: t => do
      let (ss, ps) ← buildCondList (c :: t)
      .ok ((joinSp (head ++ ["WHERE " ++ joinAnd ss] ++ returningParts d.returning), ps),
           { d with whereConditions := whereConds })

/-- `Delete.delete_all` (delete.py lines 118-132): appends
`LiteralExpression(True)` to the WHERE-condition list. -/
def Delete.delete_all (d : Delete) : Delete :=
  { d with whereConditions := d.whereConditions ++ [Expr.literalExpression (Value.bool true)] }

/-- The accumulated state of `query/update.py`'s `Update` builder. -/
structure Update where
  table : TableInst
  columns : Option (List String) := Option.none
  overrides : List (String × ExprOrValue) := []
  joins : List UpdateJoin := []
  whereConditions : List Expr := []
  returning : Option (List String) := Option.none

/-- The `model_data` of `Update.build` (update.py lines 29-37): a dump of
the named columns when `self._columns` is truthy, otherwise all columns
minus primary keys, then `dict.update`d with the overrides. -/
def Update.modelData (u : Update) : List (String × ExprOrValue) :=
  let dump :=
    match u.columns with
    | Option.some (c :: t) => u.table.row.filter (fun (kv : String × Value) => (c :: t).contains kv.1)
    | _ => u.table.row.filter (fun (kv : String × Value) => !u.table.pks.contains kv.1)
  dictUpdate (dump.map (fun (kv : String × Value) => (kv.1, ExprOrValue.val kv.2))) u.overrides

/-- The SET-clause loop of `Update.build` (lines 46-53): each value is
coerced via `to_expression` and built. -/
def buildSets : List (String × ExprOrValue) → Except String (List String × List Value)
  | [] => .ok ([], [])
  | (col, v) :: t => do
      let (vs, vp) ← build (to_expression v)
      let (ss, ps) ← buildSets t
      .ok ((col ++ " = " ++ vs) :: ss, vp ++ ps)

/-- `Update.build` (update.py lines 26-86): UPDATE → SET → FROM (join
tables, whose ON conditions are appended to `self._where_conditions` —
a mutation, hence the returned post-state) → WHERE (raising the
missing-WHERE `ValueError` when empty) → RETURNING. -/
def Update.build (u : Update) : Except String ((String × List Value) × Update) :=
  match u.modelData with
  | [] => .error "No columns found to update"
  | m :: md => do
      let (setClauses, setParams) ← buildSets (m :: md)
      let (fromParts, whereConds) :=
        match u.joins with
        | [] => (([] : List String), u.whereConditions)
        | js =>
            (["FROM " ++ joinComma (js.map (fun (j : UpdateJoin) => j.tableName))],
             u.whereConditions ++ js.filterMap (fun (j : UpdateJoin) => j.onCondition))
      match whereConds with
      | [] =>
          .error "UPDATE query must include a WHERE clause. Use update_all() for intentional full table update."
      | c :: t => do
          let (ws, wp) ← buildCondList (c :: t)
          .ok ((joinSp (["UPDATE " ++ u.table.tableName, "SET " ++ joinComma setClauses]
                ++ fromParts ++ ["WHERE " ++ joinAnd ws] ++ returningParts u.returning),
               setParams ++ wp),
              { u with whereConditions := whereConds })

/-- Modelled from the spec: the missing-WHERE error message of
`Update.build` directs callers to an `update_all()` escape that the
source never defines. Per the spec ("an explicit `update_all()`-style
escape (append an always-true condition)"), it is modelled exactly like
`Delete.delete_all`: appending `LiteralExpression(True)` to the
WHERE-condition list. -/
def Update.update_all (u : Update) : Update :=
  { u with whereConditions := u.whereConditions ++ [Expr.literalExpression (Value.bool true)] }

/-- `enums.ConflictAction`. -/
inductive ConflictAction where
  | doNothing | doUpdate
  deriving DecidableEq

/-- The accumulated state of `query/insert.py`'s `Insert` builder. -/
structure Insert where
  table : TableInst
  columns : Option (List String) := Option.none
  overrides : List (String × Value) := []
  returning : Option (List String) := Option.none
  onConflictTarget : Option (List String) := Option.none
  onConflictAction : Option ConflictAction := Option.none
  onConflictUpdate : Option (List (String × ExprOrValue)) := Option.none
  selectQuery : Option Select := Option.none

/-- The `model_data` computed at the top of `Insert.build` (lines 46-53):
a dump restricted to `self._columns` when truthy, else the full dump,
then `dict.update`d with the overrides. -/
def Insert.modelData (i : Insert) : List (String × Value) :=
  let dump :=
    match i.columns with
    | Option.some (c :: t) => i.table.row.filter (fun (kv : String × Value) => (c :: t).contains kv.1)
    | _ => i.table.row
  dictUpdate dump i.overrides

/-- `Insert._build_values(table, columns)` (lines 118-128) for the one row
of a plain `Insert`: re-dump, restrict to the passed columns when
`self._columns` is falsy, merge overrides, then read each column via
`dict.get` (absent keys yield Python `None`). -/
def Insert.buildValuesRow (i : Insert) (cols : List String) : List Value :=
  let dump :=
    match i.columns with
    | Option.some (c :: t) => i.table.row.filter (fun (kv : String × Value) => (c :: t).contains kv.1)
    | _ => cols.filterMap (fun c => (lookup i.table.row c).map (fun v => (c, v)))
  let dump := dictUpdate dump i.overrides
  cols.map (fun c => (lookup dump c).getD Value.none)

/-- The ON CONFLICT DO UPDATE SET loop (insert.py lines 97-105): expression
values render inline with their params, plain values become `col = %s`
plus one parameter. -/
def buildConflictSets : List (String × ExprOrValue) → Except String (List String × List Value)
  | [] => .ok ([], [])
  | (col, ExprOrValue.expr e) :: t => do
      let (es, ep) ← build e
      let (ss, ps) ← buildConflictSets t
      .ok ((col ++ " = " ++ es) :: ss, ep ++ ps)
  | (col, ExprOrValue.val v) :: t => do
      let (ss, ps) ← buildConflictSets t
      .ok ((col ++ " = %s") :: ss, v :: ps)

/-- `Insert.build` (insert.py lines 42-116): INSERT INTO → column list →
VALUES row (or the nested SELECT when `from_select` was used) →
ON CONFLICT section (DO UPDATE with a falsy SET mapping raises) →
RETURNING. -/
def Insert.build (i : Insert) : Except String (String × List Value) :=
  let md := i.modelData
  let cols := (md.map (fun (kv : String × Value) => kv.1)).filter (fun c => i.table.dbFields.contains c)
  match cols with
  | [] => .error "No valid database columns found to insert"
  | c0 :: ct => do
      let head := ["INSERT INTO " ++ i.table.tableName, "(" ++ joinComma (c0 :: ct) ++ ")"]
      let (valuesParts, valuesParams) ←
        match i.selectQuery with
        | Option.some q => do
            let (ssql, sparams) ← Select.build q
            pure ([ssql], sparams)
        | Option.none =>
            pure (["VALUES (" ++ placeholders (c0 :: ct).length ++ ")"],
                  i.buildValuesRow (c0 :: ct))
      let (confParts, confParams) ←
        match i.onConflictTarget with
        | Option.none => pure (([] : List String), ([] : List Value))
        | Option.some tgt => do
            let base := ["ON CONFLICT (" ++ joinComma tgt ++ ")"]
            match i.onConflictAction with
            | Option.some ConflictAction.doNothing => pure (base ++ ["DO NOTHING"], ([] : List Value))
            | Option.some ConflictAction.doUpdate =>
                match i.onConflictUpdate with
                | Option.none => .error "ON CONFLICT DO UPDATE requires SET clause"
                | Option.some [] => .error "ON CONFLICT DO UPDATE requires SET clause"
                | Option.some (s0 :: st) => do
                    let (setClauses, setParams) ← buildConflictSets (s0 :: st)
                    pure (base ++ ["DO UPDATE SET " ++ joinComma setClauses], setParams)
            | Option.none => pure (base, ([] : List Value))
      .ok (joinSp (head ++ valuesParts ++ confParts ++ returningParts i.returning),
           valuesParams ++ confParams)

/-- The target resolution of `Insert.on_conflict` (lines 197-218) for
`ColumnInfo` targets: each contributes its `_source_field` (the bare
field name, not the `table.field` string). -/
def on_conflict_cols (cols : List ColumnInfo) : List String :=
  cols.map (fun (c : ColumnInfo) => c.sourceField)

/-- `OnConflict.do_update` (insert.py lines 313-326): stores the target,
sets the action to DO UPDATE and merges the updates into
`_on_conflict_update` (started as `{}` when unset). `ColumnInfo` keys
would be stringified via `str()` first; the claims only use string keys,
which pass through unchanged. -/
def Insert.do_update (i : Insert) (target : List String)
    (updates : List (String × ExprOrValue)) : Insert :=
  { i with onConflictTarget := Option.some target,
           onConflictAction := Option.some ConflictAction.doUpdate,
           onConflictUpdate := Option.some (dictUpdate (i.onConflictUpdate.getD []) updates) }

/-- `BulkInsert`'s accumulated state (insert.py lines 277-300): the
iterable of table instances and the optional column restriction; unlike
`Insert.__init__`, no `table` attribute is ever set. -/
structure BulkInsert where
  tables : List TableInst
  columns : Option (List String) := Option.none

/-- `BulkInsert` inherits `Insert.build`, whose very first table access
(`self.table.model_dump(...)`, insert.py lines 48/51) raises
`AttributeError`: `BulkInsert.__init__` stores `_tables` but never sets
`table`. (Independently, `Insert.build` calls
`self._build_values(self.table, columns)` whereas the override
`BulkInsert._build_values(self, columns)` takes no table argument.)
Every `BulkInsert(...).build()` call therefore raises before rendering
anything. -/
def BulkInsert.build (_ : BulkInsert) : Except String (String × List Value) :=
  .error "AttributeError: 'BulkInsert' object has no attribute 'table'"

/-- A shared concrete ON condition used by the builder scenarios. -/
def joinOnCondition : Expr := .expression "posts.user_id = users.id" []

/-- The concrete `users` table instance of the scenarios:
`users(id=1, email='john@example.com', name='John')`, `id` primary key. -/
def usersInst : TableInst :=
  { tableName := "users",
    row := [("id", .int 1), ("email", .str "john@example.com"), ("name", .str "John")],
    dbFields := ["id", "email", "name"],
    pks := ["id"] }

/-- A second `users` row for the bulk-insert scenario. -/
def usersInst2 : TableInst :=
  { tableName := "users",
    row := [("id", .int 2), ("email", .str "jane@example.com"), ("name", .str "Jane")],
    dbFields := ["id", "email", "name"],
    pks := ["id"] }

/-- The `users.email` column descriptor. -/
def emailColumn : ColumnInfo := ⟨"users", "email"⟩

/-- A Delete builder with one join carrying an ON condition and no
explicit WHERE — the state on which repeated builds diverge. -/
def c2Delete : Delete :=
  { tableName := "users",
    joins := [{ tableName := "posts", onCondition := Option.some joinOnCondition }] }

/-- The C6 scenario: `user.insert().on_conflict(User.email).do_update({'name': 'Jane'})`. -/
def c6Insert : Insert :=
  Insert.do_update { table := usersInst } (on_conflict_cols [emailColumn])
    [("name", .val (.str "Jane"))]

/-- Number of leftmost-first, non-overlapping occurrences of the
placeholder token `%s` in a character list. -/
def countPH : List Char → Nat
  | [] => 0
  | [_] => 0
  | c :: c2 :: t => if c = '%' ∧ c2 = 's' then countPH t + 1 else countPH (c2 :: t)

/-- Replace the i-th placeholder occurrence (leftmost first) by the i-th
replacement text, simultaneously; occurrences beyond the replacement list
are left in place. This is the specification-side reading of "the i-th
placeholder occurrence is paired with the i-th parameter". -/
def substPH : List Char → List String → List Char
  | [], _ => []
  | [c], _ => [c]
  | c :: c2 :: t, rs =>
      if c = '%' ∧ c2 = 's' then
        match rs with
        | r :: rs2 => r.data ++ substPH t rs2
        | [] => c :: c2 :: substPH t []
      else c :: substPH (c2 :: t) rs

/-- Python `str.replace('%s', r, 1)`: replace only the first placeholder
occurrence, if any. -/
def replaceFirstPH : List Char → List Char → List Char
  | [], _ => []
  | [c], _ => [c]
  | c :: c2 :: t, r => if c = '%' ∧ c2 = 's' then r ++ t else c :: replaceFirstPH (c2 :: t) r

/-- `utils.format_query` (utils.py lines 28-36) applied to an
already-built `(sql, params)` pair: for each parameter in order, the
first remaining placeholder is replaced by the parameter's `repr`. -/
def format_query (sql : String) (params : List Value) : String :=
  params.foldl (fun acc p => String.mk (replaceFirstPH acc.data (pyRepr p).data)) sql

/-- The claimed behaviour of the debug helper: the i-th placeholder
occurrence replaced by the repr of the i-th parameter, simultaneously
for every i. -/
def substAllPH (sql : String) (params : List Value) : String :=
  String.mk (substPH sql.data (params.map pyRepr))

/-- The C9 counterexample query: two WHERE conditions whose first bound
parameter is the string `'%s'`. -/
def c9Select : Select :=
  { tableName := "users",
    whereConditions :=
      [Expr.condition (.expression "users.name" []) .eq (.literalExpression (.str "%s")),
       Expr.condition (.expression "users.active" []) .eq (.literalExpression (.bool true))] }

mutual
/-- Placeholder-balancedness of the raw fragments embedded in an
expression tree: every raw `Expression(sql, params)` node carries exactly
as many placeholder occurrences as parameters, and the free-form strings
spliced into the rendered SQL without contributing parameters (alias
names, unary operator strings, function names, OVER clauses, tree joiner
strings) contain no placeholder token. Every expression the pgantics API
itself constructs satisfies this. -/
def balanced : Expr → Bool
  | .expression sql params => countPH sql.data == params.length
  | .literalExpression _ => true
  | .nullExpression => true
  | .aliasExpression e a => balanced e && (countPH a.data == 0)
  | .binaryExpression l _ r => balanced l && balanced r
  | .unaryExpression op e => (countPH op.data == 0) && balanced e
  | .functionExpression name args _ fc oc =>
      (countPH name.data == 0) && balancedArgs args && balancedOpt fc &&
        (match oc with
         | Option.none => true
         | Option.some o => countPH o.data == 0)
  | .caseExpression whens els => balancedWhens whens && balancedOpt els
  | .condition l _ r => balanced l && balanced r
  | .conditionTree op l r => (countPH op.data == 0) && balanced l && balanced r
  | .notCondition c => balanced c
  | .orderExpression e _ => balanced e

/-- Balancedness of an argument list. -/
def balancedArgs : ExprList → Bool
  | .nil => true
  | .cons e t => balanced e && balancedArgs t

/-- Balancedness of a WHEN-clause list. -/
def balancedWhens : WhenList → Bool
  | .nil => true
  | .cons c v t => balanced c && balanced v && balancedWhens t

/-- Balancedness of an optional expression. -/
def balancedOpt : OptExpr → Bool
  | .none => true
  | .some e => balanced e
end

mutual
/-- Modelled from the spec: the invariant "param_list order matches
placeholder occurrence order left-to-right" is formalized by this
parallel renderer, which produces the same SQL as `build` but with each
parameter's repr inlined at that parameter's own syntactic position. The
claim compares the placeholder-substitution of `build`'s output against
it. -/
def inlineRender : Expr → Except String String
  | .expression sql params => .ok (String.mk (substPH sql.data (params.map pyRepr)))
  | .literalExpression v =>
      match v with
      | Value.none => .ok "NULL"
      | _ => .ok (pyRepr v)
  | .nullExpression => .ok "NULL"
  | .aliasExpression e a => do
      let s ← inlineRender e
      .ok (s ++ " AS " ++ a)
  | .binaryExpression l op r => do
      let ls ← inlineRender l
      let rs ← inlineRender r
      .ok ("(" ++ ls ++ " " ++ op.val ++ " " ++ rs ++ ")")
  | .unaryExpression op e => do
      let s ← inlineRender e
      .ok (op ++ "(" ++ s ++ ")")
  | .functionExpression name args distinct fc oc => do
      let iss ← inlineArgs args
      let argsPart := joinComma iss
      let argsPart := if distinct ∧ argsPart ≠ "" then "DISTINCT " ++ argsPart else argsPart
      let sql := name ++ "(" ++ argsPart ++ ")"
      let sql ←
        match fc with
        | .none => pure sql
        | .some c => do
            let fs ← inlineRender c
            pure (sql ++ " FILTER (WHERE " ++ fs ++ ")")
      let sql :=
        match oc with
        | Option.none => sql
        | Option.some o => sql ++ " OVER (" ++ o ++ ")"
      .ok sql
  | .caseExpression whens els =>
      match whens with
      | .nil => .error "CASE expression must have at least one WHEN clause"
      | .cons c v t => do
          let parts ← inlineWhens (.cons c v t)
          let parts ←
            match els with
            | .none => pure parts
            | .some e => do
                let es ← inlineRender e
                pure (parts ++ ["ELSE " ++ es])
          .ok (joinSp (["CASE"] ++ parts ++ ["END"]))
  | .condition l op r => do
      let ls ← inlineRender l
      let rs ← inlineRender r
      if op = Operator.isNull ∨ op = Operator.isNotNull then
        .ok (ls ++ " " ++ (if op = Operator.isNull then "IS NULL" else "IS NOT NULL"))
      else
        .ok (ls ++ " " ++ op.val ++ " " ++ rs)
  | .conditionTree op l r => do
      let ls ← inlineRender l
      let rs ← inlineRender r
      .ok ("(" ++ ls ++ ") " ++ op ++ " (" ++ rs ++ ")")
  | .notCondition c => do
      let s ← inlineRender c
      .ok ("NOT (" ++ s ++ ")")
  | .orderExpression e dir => do
      let s ← inlineRender e
      .ok (s ++ " " ++ dir.val)

/-- Inline rendering of an argument list. -/
def inlineArgs : ExprList → Except String (List String)
  | .nil => .ok []
  | .cons e t => do
      let s ← inlineRender e
      let ss ← inlineArgs t
      .ok (s :: ss)

/-- Inline rendering of a WHEN-clause list. -/
def inlineWhens : WhenList → Except String (List String)
  | .nil => .ok []
  | .cons c v t => do
      let cs ← inlineRender c
      let vs ← inlineRender v
      let ss ← inlineWhens t
      .ok (("WHEN " ++ cs ++ " THEN " ++ vs) :: ss)
end

/-- The per-expression induction statement: a balanced expression's build
has as many placeholders as parameters, and substituting the parameter
reprs into the placeholders reproduces the inline rendering. -/
def MotE (e : Expr) : Prop :=
  ∀ (s : String) (p : List Value), balanced e = true → build e = .ok (s, p) →
    countPH s.data = p.length ∧
    inlineRender e = .ok (String.mk (substPH s.data (p.map pyRepr)))

/-- The induction statement for argument lists, phrased on the
comma-joined argument fragment. -/
def MotA (es : ExprList) : Prop :=
  ∀ (ss : List String) (ps : List Value), balancedArgs es = true →
    buildArgs es = .ok (ss, ps) →
    countPH (joinComma ss).data = ps.length ∧
    ∃ iss, inlineArgs es = .ok iss ∧ iss.length = ss.length ∧
      substPH (joinComma ss).data (ps.map pyRepr) = (joinComma iss).data

/-- The induction statement for WHEN-clause lists, phrased on the
space-joined parts. -/
def MotW (ws : WhenList) : Prop :=
  ∀ (ss : List String) (ps : List Value), balancedWhens ws = true →
    buildWhens ws = .ok (ss, ps) →
    countPH (joinSp ss).data = ps.length ∧
    ∃ iss, inlineWhens ws = .ok iss ∧ iss.length = ss.length ∧
      substPH (joinSp ss).data (ps.map pyRepr) = (joinSp iss).data

/-- The induction statement for optional sub-expressions. -/
def MotO : OptExpr → Prop
  | .none => True
  | .some e => MotE e

/-- C1, counterexample. The claim states that `in_` on an empty sequence
builds a condition whose `build()` has an empty parameter list. On the
code, `Expression.in_([])` builds
`Condition(LiteralExpression('1'), EQ, LiteralExpression('0'))`, and
`LiteralExpression.build` renders `'%s'` with the value as a parameter,
so the built pair is `("%s = %s", ['1', '0'])` — a two-element parameter
list, not an empty one. -/
theorem c1_counterexample :
    build ((Expr.expression "users.age" []).in_ (.seqArg [])) =
      .ok ("%s = %s", [Value.str "1", Value.str "0"]) ∧
    [Value.str "1", Value.str "0"] ≠ ([] : List Value) :=
  ⟨rfl, by decide⟩

/-- C1, amended. For every expression `col`, `col.in_([])` builds a
condition rendering `"%s = %s"` with parameters `['1', '0']` — a
comparison that is false however the placeholders are bound, with no
`()` emitted — and `col.not_in_([])` renders `"%s = %s"` with
parameters `['1', '1']` (true however bound). The parallel
`ColumnInfo.in_` path of `column.py` has no empty-sequence
short-circuit: it renders `"<table>.<field> IN ()"` with zero
parameters. -/
theorem c1_amended_theorem :
    (∀ col : Expr,
      build (col.in_ (.seqArg [])) = .ok ("%s = %s", [Value.str "1", Value.str "0"]) ∧
      build (col.not_in_ (.seqArg [])) = .ok ("%s = %s", [Value.str "1", Value.str "1"])) ∧
    (∀ c : ColumnInfo,
      (c.in_cond []).build = (c.str ++ " IN ()", [])) := by
  constructor
  · intro col
    exact ⟨rfl, rfl⟩
  · intro c
    show (c.str ++ " IN (" ++ placeholders 0 ++ ")", ([] : List Value)) = _
    simp only [String.append_assoc]
    rfl

/-- C8: for all conditions `a` and `b` whose builds succeed,
`(a & b).build()` is `"(" ++ a.sql ++ ") AND (" ++ b.sql ++ ")"` with
`a`'s parameters followed by `b`'s, `(a | b)` the same with `OR`, and
`(~a).build()` is `"NOT (" ++ a.sql ++ ")"` with `a`'s parameters
unchanged. -/
theorem c8_boolean_combinators :
    ∀ (a b : Expr) (as' ap bs bp : _), build a = .ok (as', ap) → build b = .ok (bs, bp) →
      build (a.and_ b) = .ok ("(" ++ as' ++ ") AND (" ++ bs ++ ")", ap ++ bp) ∧
      build (a.or_ b) = .ok ("(" ++ as' ++ ") OR (" ++ bs ++ ")", ap ++ bp) ∧
      build a.invert = .ok ("NOT (" ++ as' ++ ")", ap) := by
  intro a b as' ap bs bp ha hb
  refine ⟨?_, ?_, ?_⟩
  · simp only [Expr.and_, build]
    rw [ha, hb]
    simp only [String.append_assoc]
    rfl
  · simp only [Expr.or_, build]
    rw [ha, hb]
    simp only [String.append_assoc]
    rfl
  · simp only [Expr.invert, build]
    rw [ha]
    simp only [String.append_assoc]
    rfl

/-- C8 witness at concrete conditions. -/
theorem c8_witness :
    build ((Expr.expression "users.age > %s" [Value.int 18]).and_
             (Expr.expression "users.id = %s" [Value.int 7])) =
      .ok ("(users.age > %s) AND (users.id = %s)", [Value.int 18, Value.int 7]) :=
  (c8_boolean_combinators (Expr.expression "users.age > %s" [Value.int 18])
    (Expr.expression "users.id = %s" [Value.int 7])
    "users.age > %s" [Value.int 18] "users.id = %s" [Value.int 7] rfl rfl).1

/-- C10: `to_expression(None)` is a `LiteralExpression` whose build is
`('NULL', [])`, and for any expression `e` whose build succeeds,
`e == None` renders `"<e> = NULL"` with no parameter contributed by the
right-hand side. -/
theorem c10_none_literal :
    to_expression (.val Value.none) = Expr.literalExpression Value.none ∧
    build (to_expression (.val Value.none)) = .ok ("NULL", []) ∧
    ∀ (e : Expr) (s : String) (p : List Value), build e = .ok (s, p) →
      build (e.eq_ (.val Value.none)) = .ok (s ++ " = NULL", p) := by
  refine ⟨rfl, rfl, ?_⟩
  intro e s p he
  simp only [Expr.eq_, to_expression, build]
  rw [he]
  simp only [String.append_assoc]
  show Except.ok (s ++ (" " ++ ("=" ++ (" " ++ "NULL"))), p ++ ([] : List Value)) =
    Except.ok (s ++ " = NULL", p)
  rw [List.append_nil]
  rfl

/-- C10 witness at a concrete column expression. -/
theorem c10_witness :
    build ((Expr.expression "users.email" []).eq_ (.val Value.none)) =
      .ok ("users.email = NULL", []) :=
  c10_none_literal.2.2 (Expr.expression "users.email" []) "users.email" [] rfl

theorem okBindEq {ε α β : Type} (a : α) (f : α → Except ε β) :
    ((Except.ok a : Except ε α) >>= f) = f a := rfl

theorem errorBindEq {ε α β : Type} (e : ε) (f : α → Except ε β) :
    ((Except.error e : Except ε α) >>= f) = Except.error e := rfl

/-- A condition-requiring join with no attached ON condition builds to the
missing-ON `ValueError`. -/
theorem join_build_error (j : Join) (hreq : j.joinType.noOn = false)
    (hnone : j.onCondition = Option.none) :
    j.build = .error ("JOIN with " ++ j.tableName ++ " is missing ON condition") := by
  simp [Join.build, hreq, hnone]

/-- If any join in the list is condition-requiring with no ON condition,
the join loop raises (the first raising join wins). -/
theorem buildJoins_error {js : List Join} {j : Join} (hj : j ∈ js)
    (hreq : j.joinType.noOn = false) (hnone : j.onCondition = Option.none) :
    ∃ msg, buildJoins js = .error msg := by
  induction js with
  | nil => cases hj
  | cons k t ih =>
    rcases List.mem_cons.mp hj with h | hmem
    · subst h
      refine ⟨"JOIN with " ++ j.tableName ++ " is missing ON condition", ?_⟩
      simp [buildJoins, join_build_error j hreq hnone, errorBindEq]
    · cases hkb : k.build with
      | error e => exact ⟨e, by simp [buildJoins, hkb, errorBindEq]⟩
      | ok r =>
        rcases ih hmem with ⟨m, hm⟩
        exact ⟨m, by simp [buildJoins, hkb, okBindEq, hm, errorBindEq]⟩

/-- C2 is violated by the code: `Delete.build` (like `Update.build`)
appends join ON conditions into `self._where_conditions`, so building
mutates the builder's clause lists and a second `build()` renders the
join condition twice in the WHERE clause, returning a different pair. -/
theorem c2_code_bug_eval :
    c2Delete.build =
      .ok (("DELETE FROM users USING posts WHERE (posts.user_id = users.id)", []),
           { c2Delete with whereConditions := [joinOnCondition] }) ∧
    ({ c2Delete with whereConditions := [joinOnCondition] } : Delete).build =
      .ok (("DELETE FROM users USING posts WHERE (posts.user_id = users.id) AND (posts.user_id = users.id)",
            []),
           { c2Delete with whereConditions := [joinOnCondition, joinOnCondition] }) ∧
    ("DELETE FROM users USING posts WHERE (posts.user_id = users.id)" : String) ≠
      "DELETE FROM users USING posts WHERE (posts.user_id = users.id) AND (posts.user_id = users.id)" :=
  ⟨rfl, rfl, by decide⟩

/-- C4, counterexample. A CROSS join with an attached ON condition does
not raise at `build()` time — the condition is silently ignored and the
query renders successfully (the claim says every such join raises). -/
theorem c4_counterexample :
    Select.build
      { tableName := "users",
        joins := [{ tableName := "posts", joinType := JoinType.cross,
                    onCondition := Option.some joinOnCondition }] } =
      .ok ("SELECT * FROM users CROSS JOIN posts", []) :=
  rfl

/-- C4, amended. At `Select.build` time: (1) any join of a
condition-requiring kind (INNER/LEFT/RIGHT/FULL, i.e. `noOn = false`)
with no attached ON condition makes `build()` raise; (2) a CROSS/NATURAL
join never raises — it renders `<kind> JOIN <table>` with any attached
condition ignored; (3) no unjoined-table validation exists: a selected
column from a table that is neither the primary table nor joined renders
without error. -/
theorem c4_amended_theorem :
    (∀ (q : Select) (j : Join), j ∈ q.joins → j.joinType.noOn = false →
        j.onCondition = Option.none → ∃ e, q.build = .error e) ∧
    (∀ j : Join, j.joinType.noOn = true →
        j.build = .ok (j.joinType.val ++ " JOIN " ++ j.tableName, [])) ∧
    Select.build { tableName := "users", selectColumns := [.columnInfo ⟨"posts", "title"⟩] } =
      .ok ("SELECT posts.title FROM users", []) := by
  refine ⟨?_, ?_, rfl⟩
  · intro q j hj hreq hnone
    rcases buildJoins_error hj hreq hnone with ⟨m, hm⟩
    cases hc : q.selectColumns with
    | nil => exact ⟨m, by simp [Select.build, hc, okBindEq, hm, errorBindEq]⟩
    | cons c t =>
      cases hcols : buildSelectCols (c :: t) with
      | error e => exact ⟨e, by simp [Select.build, hc, hcols, errorBindEq, okBindEq]⟩
      | ok r => exact ⟨m, by simp [Select.build, hc, hcols, okBindEq, hm, errorBindEq]⟩
  · intro j h
    simp [Join.build, h]

/-- C4 witness: an INNER join with no ON condition raises at build time,
and a CROSS join with a condition attached renders without it. -/
theorem c4_witness :
    (∃ e, Select.build
        { tableName := "users",
          joins := [{ tableName := "posts", joinType := JoinType.inner,
                      onCondition := Option.none }] } = .error e) ∧
    Join.build { tableName := "posts", joinType := JoinType.cross,
                 onCondition := Option.some joinOnCondition } =
      .ok (JoinType.cross.val ++ " JOIN " ++ "posts", []) :=
  ⟨c4_amended_theorem.1
      { tableName := "users",
        joins := [{ tableName := "posts", joinType := JoinType.inner,
                    onCondition := Option.none }] }
      { tableName := "posts", joinType := JoinType.inner, onCondition := Option.none }
      (by simp) rfl rfl,
   c4_amended_theorem.2.1
      { tableName := "posts", joinType := JoinType.cross,
        onCondition := Option.some joinOnCondition } rfl⟩

/-- C5 is violated by the code: a single-row insert renders one VALUES
tuple as claimed, but `BulkInsert(...).build()` — the inherited
`Insert.build` — crashes on its first `self.table` access
(`BulkInsert.__init__` never sets `table`), so a bulk insert never
renders one VALUES group per row-source. -/
theorem c5_code_bug_eval :
    Insert.build { table := usersInst } =
      .ok ("INSERT INTO users (id, email, name) VALUES (%s, %s, %s)",
           [Value.int 1, Value.str "john@example.com", Value.str "John"]) ∧
    BulkInsert.build { tables := [usersInst, usersInst2] } =
      .error "AttributeError: 'BulkInsert' object has no attribute 'table'" :=
  ⟨rfl, rfl⟩

/-- C6, counterexample. `on_conflict` stores each target column's bare
`_source_field`, so the conflict target renders `(email)`, and the built
SQL does not contain the claimed fragment
`"ON CONFLICT (users.email) DO UPDATE SET name = %s"`. -/
theorem c6_counterexample :
    c6Insert.build =
      .ok ("INSERT INTO users (id, email, name) VALUES (%s, %s, %s) ON CONFLICT (email) DO UPDATE SET name = %s",
           [Value.int 1, Value.str "john@example.com", Value.str "John", Value.str "Jane"]) ∧
    containsSub
      "INSERT INTO users (id, email, name) VALUES (%s, %s, %s) ON CONFLICT (email) DO UPDATE SET name = %s"
      "ON CONFLICT (users.email) DO UPDATE SET name = %s" = false :=
  ⟨rfl, by decide⟩

/-- C6, amended. The scenario's SQL contains
`"ON CONFLICT (email) DO UPDATE SET name = %s"` (bare field name, not
`users.email`) with `'Jane'` as the trailing parameter, and a
`do_update` resolving to zero SET entries is a build-time error. -/
theorem c6_amended_theorem :
    c6Insert.build =
      .ok ("INSERT INTO users (id, email, name) VALUES (%s, %s, %s) ON CONFLICT (email) DO UPDATE SET name = %s",
           [Value.int 1, Value.str "john@example.com", Value.str "John", Value.str "Jane"]) ∧
    containsSub
      "INSERT INTO users (id, email, name) VALUES (%s, %s, %s) ON CONFLICT (email) DO UPDATE SET name = %s"
      "ON CONFLICT (email) DO UPDATE SET name = %s" = true ∧
    List.getLast? [Value.int 1, Value.str "john@example.com", Value.str "John", Value.str "Jane"] =
      Option.some (Value.str "Jane") ∧
    Insert.build (Insert.do_update { table := usersInst } (on_conflict_cols [emailColumn]) []) =
      .error "ON CONFLICT DO UPDATE requires SET clause" :=
  ⟨rfl, by decide, by decide, rfl⟩

theorem strEmptyAppend (s : String) : "" ++ s = s := rfl

theorem strAppendEmpty (s : String) : s ++ "" = s :=
  congrArg String.mk (List.append_nil s.data)

/-- Any element of a space-joined part list occurs verbatim inside the
joined string. -/
theorem joinSp_decomp (l1 : List String) (x : String) (l2 : List String) :
    ∃ pre post, joinSp (l1 ++ x :: l2) = pre ++ x ++ post := by
  induction l1 with
  | nil =>
    cases l2 with
    | nil => exact ⟨"", "", by simp [joinSp, strAppendEmpty, strEmptyAppend]⟩
    | cons y t =>
        exact ⟨"", " " ++ joinSp (y :: t), by simp [joinSp, strEmptyAppend, String.append_assoc]⟩
  | cons a t ih =>
    rcases ih with ⟨pre, post, hp⟩
    cases ht : t ++ x :: l2 with
    | nil => exact absurd ht (by simp)
    | cons b r =>
      refine ⟨a ++ " " ++ pre, post, ?_⟩
      rw [List.cons_append, ht]
      simp only [joinSp]
      rw [← ht, hp]
      simp [String.append_assoc]

theorem build_literal_true :
    build (Expr.literalExpression (Value.bool true)) = .ok ("%s", [Value.bool true]) := rfl

theorem update_all_modelData (u : Update) : u.update_all.modelData = u.modelData := rfl

theorem update_all_joins (u : Update) : u.update_all.joins = u.joins := rfl

theorem update_all_table (u : Update) : u.update_all.table = u.table := rfl

theorem update_all_returning (u : Update) : u.update_all.returning = u.returning := rfl

theorem update_all_where (u : Update) :
    u.update_all.whereConditions =
      u.whereConditions ++ [Expr.literalExpression (Value.bool true)] := rfl

theorem delete_all_joins (d : Delete) : d.delete_all.joins = d.joins := rfl

theorem delete_all_tableName (d : Delete) : d.delete_all.tableName = d.tableName := rfl

theorem delete_all_returning (d : Delete) : d.delete_all.returning = d.returning := rfl

theorem delete_all_where (d : Delete) :
    d.delete_all.whereConditions =
      d.whereConditions ++ [Expr.literalExpression (Value.bool true)] := rfl

/-- C3: an Update or Delete builder whose accumulated WHERE-condition
list is empty (no explicit conditions and no join-contributed ON
conditions) raises the missing-WHERE `ValueError` at `build()`; after
the documented bypass — appending the always-true condition
`LiteralExpression(True)` (`Delete.delete_all`; for Update the
`update_all` named in the error message is absent from the source and is
modelled from the spec the same way) — `build()` succeeds and the
rendered SQL contains a `WHERE (%s)` clause whose single bound
parameter is `True`, a tautology. For Update the hypotheses also require
a non-empty SET mapping that builds (otherwise `build` raises the
empty-SET error first). -/
theorem c3_missing_where_guard :
    (∀ u : Update, u.whereConditions = [] →
        (∀ j ∈ u.joins, j.onCondition = Option.none) →
        ∀ (m : String × ExprOrValue) (md : List (String × ExprOrValue))
          (sp : List String × List Value),
          u.modelData = m :: md → buildSets (m :: md) = .ok sp →
          u.build = .error "UPDATE query must include a WHERE clause. Use update_all() for intentional full table update.") ∧
    (∀ u : Update, u.whereConditions = [] →
        (∀ j ∈ u.joins, j.onCondition = Option.none) →
        ∀ (m : String × ExprOrValue) (md : List (String × ExprOrValue))
          (sp : List String × List Value),
          u.modelData = m :: md → buildSets (m :: md) = .ok sp →
          ∃ sql params u2 pre post,
            u.update_all.build = .ok ((sql, params), u2) ∧
            sql = pre ++ "WHERE (%s)" ++ post ∧
            params.getLast? = Option.some (Value.bool true)) ∧
    (∀ d : Delete, d.whereConditions = [] →
        (∀ j ∈ d.joins, j.onCondition = Option.none) →
        d.build = .error "DELETE query must include a WHERE clause. Use delete_all() for intentional full table deletion.") ∧
    (∀ d : Delete, d.whereConditions = [] →
        (∀ j ∈ d.joins, j.onCondition = Option.none) →
        ∃ sql d2 pre post,
          d.delete_all.build = .ok ((sql, [Value.bool true]), d2) ∧
          sql = pre ++ "WHERE (%s)" ++ post) := by
  have filterNone : ∀ (js : List UpdateJoin), (∀ j ∈ js, j.onCondition = Option.none) →
      js.filterMap (fun (j : UpdateJoin) => j.onCondition) = [] := by
    intro js h
    rw [List.filterMap_eq_nil_iff]
    intro a ha
    exact h a ha
  refine ⟨?_, ?_, ?_, ?_⟩
  · intro u hw hjc m md sp hmd hsp
    cases hjs : u.joins with
    | nil =>
        simp [Update.build, hmd, hsp, okBindEq, hjs, hw]
    | cons k kt =>
        have hfm := filterNone (k :: kt) (hjs ▸ hjc)
        simp [Update.build, hmd, hsp, okBindEq, hjs, hw, hfm]
  · intro u hw hjc m md sp hmd hsp
    have hmd2 : u.update_all.modelData = m :: md := hmd
    cases hjs : u.joins with
    | nil =>
        rcases joinSp_decomp ["UPDATE " ++ u.table.tableName, "SET " ++ joinComma sp.1]
            ("WHERE " ++ joinAnd ["(%s)"]) (returningParts u.returning) with ⟨pre, post, hdec⟩
        refine ⟨joinSp (["UPDATE " ++ u.table.tableName, "SET " ++ joinComma sp.1]
                  ++ ("WHERE " ++ joinAnd ["(%s)"]) :: returningParts u.returning),
                sp.2 ++ [Value.bool true],
                { u.update_all with whereConditions := [Expr.literalExpression (Value.bool true)] },
                pre, post, ?_, hdec, List.getLast?_concat _⟩
        simp [Update.build, hmd2, hsp, okBindEq, update_all_joins, hjs, update_all_where,
          hw, update_all_table, update_all_returning, buildCondList, build_literal_true]
    | cons k kt =>
        have hfm := filterNone (k :: kt) (hjs ▸ hjc)
        rcases joinSp_decomp ["UPDATE " ++ u.table.tableName, "SET " ++ joinComma sp.1,
              "FROM " ++ joinComma ((k :: kt).map (fun (j : UpdateJoin) => j.tableName))]
            ("WHERE " ++ joinAnd ["(%s)"]) (returningParts u.returning) with ⟨pre, post, hdec⟩
        refine ⟨joinSp (["UPDATE " ++ u.table.tableName, "SET " ++ joinComma sp.1,
                  "FROM " ++ joinComma ((k :: kt).map (fun (j : UpdateJoin) => j.tableName))]
                  ++ ("WHERE " ++ joinAnd ["(%s)"]) :: returningParts u.returning),
                sp.2 ++ [Value.bool true],
                { u.update_all with whereConditions := [Expr.literalExpression (Value.bool true)] },
                pre, post, ?_, hdec, List.getLast?_concat _⟩
        simp [Update.build, hmd2, hsp, okBindEq, update_all_joins, hjs, update_all_where,
          hw, update_all_table, update_all_returning, buildCondList, build_literal_true, hfm]
  · intro d hw hjc
    cases hjs : d.joins with
    | nil => simp [Delete.build, hjs, hw]
    | cons k kt =>
        have hfm := filterNone (k :: kt) (hjs ▸ hjc)
        simp [Delete.build, hjs, hw, hfm]
  · intro d hw hjc
    cases hjs : d.joins with
    | nil =>
        rcases joinSp_decomp ["DELETE FROM " ++ d.tableName]
            ("WHERE " ++ joinAnd ["(%s)"]) (returningParts d.returning) with ⟨pre, post, hdec⟩
        refine ⟨joinSp (["DELETE FROM " ++ d.tableName]
                  ++ ("WHERE " ++ joinAnd ["(%s)"]) :: returningParts d.returning),
                { d.delete_all with whereConditions := [Expr.literalExpression (Value.bool true)] },
                pre, post, ?_, hdec⟩
        simp [Delete.build, delete_all_joins, hjs, delete_all_where, hw,
          delete_all_tableName, delete_all_returning, buildCondList, build_literal_true,
          okBindEq]
    | cons k kt =>
        have hfm := filterNone (k :: kt) (hjs ▸ hjc)
        rcases joinSp_decomp ["DELETE FROM " ++ d.tableName,
              "USING " ++ joinComma ((k :: kt).map (fun (j : UpdateJoin) => j.tableName))]
            ("WHERE " ++ joinAnd ["(%s)"]) (returningParts d.returning) with ⟨pre, post, hdec⟩
        refine ⟨joinSp (["DELETE FROM " ++ d.tableName,
                  "USING " ++ joinComma ((k :: kt).map (fun (j : UpdateJoin) => j.tableName))]
                  ++ ("WHERE " ++ joinAnd ["(%s)"]) :: returningParts d.returning),
                { d.delete_all with whereConditions := [Expr.literalExpression (Value.bool true)] },
                pre, post, ?_, hdec⟩
        simp [Delete.build, delete_all_joins, hjs, delete_all_where, hw,
          delete_all_tableName, delete_all_returning, buildCondList, build_literal_true,
          okBindEq, hfm]

/-- C3 witness at concrete builders: an Update on the `users` row and a
Delete on `users`, each without WHERE, then with the bypass applied. -/
theorem c3_witness :
    Update.build { table := usersInst } =
      .error "UPDATE query must include a WHERE clause. Use update_all() for intentional full table update." ∧
    (∃ sql params u2 pre post,
        Update.build (Update.update_all { table := usersInst }) = .ok ((sql, params), u2) ∧
        sql = pre ++ "WHERE (%s)" ++ post ∧
        params.getLast? = Option.some (Value.bool true)) ∧
    Delete.build { tableName := "users" } =
      .error "DELETE query must include a WHERE clause. Use delete_all() for intentional full table deletion." ∧
    (∃ sql d2 pre post,
        Delete.build (Delete.delete_all { tableName := "users" }) =
          .ok ((sql, [Value.bool true]), d2) ∧
        sql = pre ++ "WHERE (%s)" ++ post) :=
  ⟨c3_missing_where_guard.1 { table := usersInst } rfl (by simp)
      ("email", .val (.str "john@example.com")) [("name", .val (.str "John"))]
      (["email = %s", "name = %s"], [.str "john@example.com", .str "John"]) rfl rfl,
   c3_missing_where_guard.2.1 { table := usersInst } rfl (by simp)
      ("email", .val (.str "john@example.com")) [("name", .val (.str "John"))]
      (["email = %s", "name = %s"], [.str "john@example.com", .str "John"]) rfl rfl,
   c3_missing_where_guard.2.2.1 { tableName := "users" } rfl (by simp),
   c3_missing_where_guard.2.2.2 { tableName := "users" } rfl (by simp)⟩

theorem strData_append (s t : String) : (s ++ t).data = s.data ++ t.data := rfl

theorem countPH_nil_of_single (c : Char) : countPH [c] = 0 := rfl

theorem countPH_cons_np (c : Char) (l : List Char) (rs : List String)
    (h : ¬(c = '%' ∧ l.head? = some 's')) :
    countPH (c :: l) = countPH l ∧ substPH (c :: l) rs = c :: substPH l rs := by
  cases l with
  | nil => exact ⟨rfl, rfl⟩
  | cons d t =>
      have hcd : ¬(c = '%' ∧ d = 's') := by
        intro hc
        exact h ⟨hc.1, by rw [hc.2]; rfl⟩
      constructor
      · simp only [countPH, if_neg hcd]
      · simp only [substPH, if_neg hcd]

theorem countPH_ph (t : List Char) : countPH ('%' :: 's' :: t) = countPH t + 1 := by
  simp [countPH]

theorem substPH_ph (t : List Char) (r : String) (rs : List String) :
    substPH ('%' :: 's' :: t) (r :: rs) = r.data ++ substPH t rs := by
  simp [substPH]

/-- With no replacements left, substitution is the identity. -/
theorem substPH_nil (s : List Char) : substPH s [] = s := by
  induction s using countPH.induct with
  | case1 => rfl
  | case2 c => rfl
  | case3 c c2 t h ih =>
      obtain ⟨rfl, rfl⟩ : c = '%' ∧ c2 = 's' := h
      simp [substPH, ih]
  | case4 c c2 t h ih =>
      simpa [substPH, if_neg h] using ih

/-- Counting distributes over concatenation when no occurrence can
straddle the boundary. -/
theorem countPH_append (a : List Char) :
    ∀ b : List Char, (a.getLast? ≠ some '%' ∨ b.head? ≠ some 's') →
    countPH (a ++ b) = countPH a + countPH b := by
  induction a using countPH.induct with
  | case1 =>
      intro b _
      simp [countPH]
  | case2 c =>
      intro b hb
      have hc : ¬(c = '%' ∧ b.head? = some 's') := by
        rcases hb with h | h
        · intro hx; exact h (by simp [hx.1])
        · intro hx; exact h hx.2
      simpa [countPH_nil_of_single] using (countPH_cons_np c b [] hc).1
  | case3 c c2 t h ih =>
      intro b hb
      obtain ⟨rfl, rfl⟩ : c = '%' ∧ c2 = 's' := h
      have hbt : t.getLast? ≠ some '%' ∨ b.head? ≠ some 's' := by
        rcases hb with hl | hr
        · cases t with
          | nil => exact Or.inl (by simp)
          | cons x xs =>
              left
              rw [List.getLast?_cons_cons, List.getLast?_cons_cons] at hl
              exact hl
        · exact Or.inr hr
      simp only [List.cons_append, countPH_ph, ih b hbt]
      omega
  | case4 c c2 t h ih =>
      intro b hb
      have hbt : (c2 :: t).getLast? ≠ some '%' ∨ b.head? ≠ some 's' := by
        rcases hb with hl | hr
        · left
          rw [List.getLast?_cons_cons] at hl
          exact hl
        · exact Or.inr hr
      have hc : ¬(c = '%' ∧ ((c2 :: t) ++ b).head? = some 's') := by
        intro hx
        rcases hx with ⟨rfl, hx2⟩
        simp only [List.cons_append, List.head?_cons, Option.some.injEq] at hx2
        exact h ⟨rfl, hx2⟩
      have hc2 : ¬(c = '%' ∧ (c2 :: t).head? = some 's') := by
        intro hx
        rcases hx with ⟨rfl, hx2⟩
        simp only [List.head?_cons, Option.some.injEq] at hx2
        exact h ⟨rfl, hx2⟩
      calc countPH ((c :: c2 :: t) ++ b) = countPH ((c2 :: t) ++ b) := by
            simpa using (countPH_cons_np c ((c2 :: t) ++ b) [] hc).1
        _ = countPH (c2 :: t) + countPH b := ih b hbt
        _ = countPH (c :: c2 :: t) + countPH b := by
            rw [(countPH_cons_np c (c2 :: t) [] hc2).1]

/-- Substitution splits over a concatenation once the left side's
placeholder count matches the replacements consumed there. -/
theorem substPH_split (a : List Char) :
    ∀ (b : List Char) (xs ys : List String), countPH a = xs.length →
    (a.getLast? ≠ some '%' ∨ b.head? ≠ some 's') →
    substPH (a ++ b) (xs ++ ys) = substPH a xs ++ substPH b ys := by
  induction a using countPH.induct with
  | case1 =>
      intro b xs ys hcount _
      have : xs = [] := List.eq_nil_of_length_eq_zero hcount.symm
      subst this
      rfl
  | case2 c =>
      intro b xs ys hcount hb
      have : xs = [] := List.eq_nil_of_length_eq_zero hcount.symm
      subst this
      have hc : ¬(c = '%' ∧ b.head? = some 's') := by
        rcases hb with h | h
        · intro hx; exact h (by simp [hx.1])
        · intro hx; exact h hx.2
      simpa using (countPH_cons_np c b ys hc).2
  | case3 c c2 t h ih =>
      intro b xs ys hcount hb
      obtain ⟨rfl, rfl⟩ : c = '%' ∧ c2 = 's' := h
      rw [countPH_ph] at hcount
      cases xs with
      | nil => simp at hcount
      | cons x xs2 =>
          have hbt : t.getLast? ≠ some '%' ∨ b.head? ≠ some 's' := by
            rcases hb with hl | hr
            · cases t with
              | nil => exact Or.inl (by simp)
              | cons w ws =>
                  left
                  rw [List.getLast?_cons_cons, List.getLast?_cons_cons] at hl
                  exact hl
            · exact Or.inr hr
          have hct : countPH t = xs2.length := by
            simpa using hcount
          simp only [List.cons_append, List.append_eq, substPH_ph]
          rw [ih b xs2 ys hct hbt, List.append_assoc]
  | case4 c c2 t h ih =>
      intro b xs ys hcount hb
      have hbt : (c2 :: t).getLast? ≠ some '%' ∨ b.head? ≠ some 's' := by
        rcases hb with hl | hr
        · left
          rw [List.getLast?_cons_cons] at hl
          exact hl
        · exact Or.inr hr
      have hc : ¬(c = '%' ∧ ((c2 :: t) ++ b).head? = some 's') := by
        intro hx
        rcases hx with ⟨rfl, hx2⟩
        simp only [List.cons_append, List.head?_cons, Option.some.injEq] at hx2
        exact h ⟨rfl, hx2⟩
      have hc2 : ¬(c = '%' ∧ (c2 :: t).head? = some 's') := by
        intro hx
        rcases hx with ⟨rfl, hx2⟩
        simp only [List.head?_cons, Option.some.injEq] at hx2
        exact h ⟨rfl, hx2⟩
      have hcount2 : countPH (c2 :: t) = xs.length := by
        rw [← (countPH_cons_np c (c2 :: t) [] hc2).1]
        exact hcount
      calc substPH ((c :: c2 :: t) ++ b) (xs ++ ys)
          = c :: substPH ((c2 :: t) ++ b) (xs ++ ys) := by
            simpa using (countPH_cons_np c ((c2 :: t) ++ b) (xs ++ ys) hc).2
        _ = c :: (substPH (c2 :: t) xs ++ substPH b ys) := by
            rw [ih b xs ys hcount2 hbt]
        _ = substPH (c :: c2 :: t) xs ++ substPH b ys := by
            rw [(countPH_cons_np c (c2 :: t) xs hc2).2]
            rfl

theorem decDigit_ne (k : Nat) : decDigit k ≠ 's' ∧ decDigit k ≠ '%' := by
  match k with
  | 0 => exact ⟨by decide, by decide⟩
  | 1 => exact ⟨by decide, by decide⟩
  | 2 => exact ⟨by decide, by decide⟩
  | 3 => exact ⟨by decide, by decide⟩
  | 4 => exact ⟨by decide, by decide⟩
  | 5 => exact ⟨by decide, by decide⟩
  | 6 => exact ⟨by decide, by decide⟩
  | 7 => exact ⟨by decide, by decide⟩
  | 8 => exact ⟨by decide, by decide⟩
  | n + 9 => exact ⟨show ('9' : Char) ≠ 's' by decide, show ('9' : Char) ≠ '%' by decide⟩

theorem natDecimal_chars (fuel : Nat) :
    ∀ (n : Nat), ∀ c ∈ natDecimal fuel n, c ≠ 's' ∧ c ≠ '%' := by
  induction fuel with
  | zero =>
      intro n c hc
      simp [natDecimal] at hc
  | succ f ih =>
      intro n c hc
      simp only [natDecimal] at hc
      split at hc
      · rw [List.mem_singleton] at hc
        subst hc
        exact decDigit_ne n
      · rw [List.mem_append] at hc
        rcases hc with h | h
        · exact ih _ c h
        · rw [List.mem_singleton] at h
          subst h
          exact decDigit_ne (n % 10)

theorem natDecimal_ne_nil (f n : Nat) : natDecimal (f + 1) n ≠ [] := by
  simp only [natDecimal]
  split
  · simp
  · simp

/-- A `pyRepr` text is never empty. -/
theorem pyRepr_ne_nil (v : Value) : (pyRepr v).data ≠ [] := by
  cases v with
  | int n =>
      cases n with
      | ofNat m => exact natDecimal_ne_nil m m
      | negSucc m => simp [pyRepr]
  | str s =>
      show ('\'' :: (s.data ++ ['\''])) ≠ []
      simp
  | bool b => cases b <;> decide
  | none => decide

/-- Every character of a `pyRepr` text that could extend a placeholder is
absent at the borders: the text never starts with `s`. -/
theorem pyRepr_head (v : Value) : (pyRepr v).data.head? ≠ some 's' := by
  cases v with
  | int n =>
      cases n with
      | ofNat m =>
          intro h
          have h2 : (natDecimal (m + 1) m).head? = some 's' := h
          have hm : 's' ∈ natDecimal (m + 1) m := List.mem_of_mem_head? (by simp [h2])
          exact (natDecimal_chars (m + 1) m 's' hm).1 rfl
      | negSucc m => intro h; simp [pyRepr] at h
  | str s =>
      show (('\'' :: (s.data ++ ['\''])).head? ≠ some 's')
      rw [List.head?_cons]
      decide
  | bool b => cases b <;> decide
  | none => decide

/-- A `pyRepr` text never ends with `%`. -/
theorem pyRepr_last (v : Value) : (pyRepr v).data.getLast? ≠ some '%' := by
  cases v with
  | int n =>
      cases n with
      | ofNat m =>
          intro h
          have hm : '%' ∈ natDecimal (m + 1) m := List.mem_of_mem_getLast? h
          exact (natDecimal_chars (m + 1) m '%' hm).2 rfl
      | negSucc m =>
          intro h
          have hm : '%' ∈ ('-' :: natDecimal (m + 2) (m + 1)) := List.mem_of_mem_getLast? h
          rcases List.mem_cons.mp hm with h2 | h2
          · exact absurd h2.symm (by decide)
          · exact (natDecimal_chars (m + 2) (m + 1) '%' h2).2 rfl
  | str s =>
      show (('\'' :: s.data) ++ ['\'']).getLast? ≠ some '%'
      rw [List.getLast?_concat]
      decide
  | bool b => cases b <;> decide
  | none => decide

/-- Skipping a placeholder-free block on the left of a substitution. -/
theorem substPH_skip (a b : List Char) (rs : List String) (h0 : countPH a = 0)
    (hb : a.getLast? ≠ some '%' ∨ b.head? ≠ some 's') :
    substPH (a ++ b) rs = a ++ substPH b rs := by
  have h := substPH_split a b [] rs h0 hb
  rw [List.nil_append] at h
  rw [h, substPH_nil]

/-- `replaceFirstPH` cannot create a leading `s` out of nothing. -/
theorem replaceFirst_head (l : List Char) (r : String) (hne : r.data ≠ [])
    (hh : r.data.head? ≠ some 's') (hl : l.head? ≠ some 's') :
    (replaceFirstPH l r.data).head? ≠ some 's' := by
  match l with
  | [] => exact hl
  | [c] => exact hl
  | c :: c2 :: t =>
      simp only [replaceFirstPH]
      split
      · cases hr : r.data with
        | nil => exact absurd hr hne
        | cons x xs =>
            rw [hr] at hh
            simp only [List.cons_append, List.head?_cons] at hh ⊢
            exact hh
      · exact hl

/-- Replacing the first placeholder by a safe text and then substituting
the rest equals substituting everything at once. -/
theorem replaceFirst_step (s : List Char) :
    ∀ (r : String) (rs : List String), countPH r.data = 0 → r.data ≠ [] →
    r.data.head? ≠ some 's' → r.data.getLast? ≠ some '%' →
    substPH s (r :: rs) = substPH (replaceFirstPH s r.data) rs := by
  induction s using countPH.induct with
  | case1 => intro r rs _ _ _ _; rfl
  | case2 c => intro r rs _ _ _ _; rfl
  | case3 c c2 t h ih =>
      intro r rs h0 hne hh hl
      obtain ⟨rfl, rfl⟩ : c = '%' ∧ c2 = 's' := h
      have hrw : replaceFirstPH ('%' :: 's' :: t) r.data = r.data ++ t := by
        simp [replaceFirstPH]
      rw [substPH_ph, hrw, substPH_skip r.data t rs h0 (Or.inl hl)]
  | case4 c c2 t h ih =>
      intro r rs h0 hne hh hl
      have hc2 : ¬(c = '%' ∧ (c2 :: t).head? = some 's') := by
        intro hx
        rcases hx with ⟨rfl, hx2⟩
        simp only [List.head?_cons, Option.some.injEq] at hx2
        exact h ⟨rfl, hx2⟩
      have hLhead : (replaceFirstPH (c2 :: t) r.data).head? = some 's' → c2 = 's' := by
        intro hx
        by_contra hc2s
        exact replaceFirst_head (c2 :: t) r hne hh (by simpa using hc2s) hx
      have hcL : ¬(c = '%' ∧ (replaceFirstPH (c2 :: t) r.data).head? = some 's') := by
        intro hx
        exact h ⟨hx.1, hLhead hx.2⟩
      have hrw : replaceFirstPH (c :: c2 :: t) r.data = c :: replaceFirstPH (c2 :: t) r.data := by
        simp only [replaceFirstPH, if_neg h]
      calc substPH (c :: c2 :: t) (r :: rs)
          = c :: substPH (c2 :: t) (r :: rs) := (countPH_cons_np c (c2 :: t) (r :: rs) hc2).2
        _ = c :: substPH (replaceFirstPH (c2 :: t) r.data) rs := by
            rw [ih r rs h0 hne hh hl]
        _ = substPH (c :: replaceFirstPH (c2 :: t) r.data) rs :=
            ((countPH_cons_np c (replaceFirstPH (c2 :: t) r.data) rs hcL).2).symm
        _ = substPH (replaceFirstPH (c :: c2 :: t) r.data) rs := by rw [hrw]

/-- C9, counterexample. `format_query` replaces placeholders one at a
time with `str.replace('%s', repr(param), 1)`, so when an earlier
parameter's repr itself contains `%s`, the next replacement lands inside
the previously inserted text instead of on the next real placeholder:
the claim's "the i-th placeholder occurrence replaced by the i-th
parameter, for every i" fails on this built query. -/
theorem c9_counterexample :
    Select.build c9Select =
      .ok ("SELECT * FROM users WHERE (users.name = %s) AND (users.active = %s)",
           [Value.str "%s", Value.bool true]) ∧
    format_query "SELECT * FROM users WHERE (users.name = %s) AND (users.active = %s)"
        [Value.str "%s", Value.bool true] =
      "SELECT * FROM users WHERE (users.name = 'True') AND (users.active = %s)" ∧
    substAllPH "SELECT * FROM users WHERE (users.name = %s) AND (users.active = %s)"
        [Value.str "%s", Value.bool true] =
      "SELECT * FROM users WHERE (users.name = '%s') AND (users.active = True)" ∧
    ("SELECT * FROM users WHERE (users.name = 'True') AND (users.active = %s)" : String) ≠
      "SELECT * FROM users WHERE (users.name = '%s') AND (users.active = True)" :=
  ⟨rfl, rfl, rfl, by decide⟩

/-- C9, amended. For every built SQL text and parameter list, the debug
helper produces the text with the i-th placeholder occurrence replaced
by the repr of the i-th parameter, provided no parameter's repr contains
the placeholder token `%s` (reprs are always non-empty, never start with
`s` and never end with `%`, so no other interference is possible). -/
theorem c9_amended_theorem :
    ∀ (sql : String) (params : List Value),
      (∀ p ∈ params, countPH (pyRepr p).data = 0) →
      format_query sql params = substAllPH sql params := by
  intro sql params
  induction params generalizing sql with
  | nil =>
      intro _
      show sql = String.mk (substPH sql.data [])
      rw [substPH_nil]
  | cons p ps ih =>
      intro hsafe
      have h0 := hsafe p (by simp)
      have hrest : ∀ q ∈ ps, countPH (pyRepr q).data = 0 := fun q hq => hsafe q (by simp [hq])
      have step := replaceFirst_step sql.data (pyRepr p) (ps.map pyRepr) h0
        (pyRepr_ne_nil p) (pyRepr_head p) (pyRepr_last p)
      show format_query (String.mk (replaceFirstPH sql.data (pyRepr p).data)) ps =
        substAllPH sql (p :: ps)
      rw [ih _ hrest]
      show String.mk (substPH (replaceFirstPH sql.data (pyRepr p).data) (ps.map pyRepr)) =
        String.mk (substPH sql.data (pyRepr p :: ps.map pyRepr))
      rw [← step]

/-- C9 witness at a concrete query text and placeholder-free reprs. -/
theorem c9_witness :
    format_query "SELECT * FROM users WHERE (users.name = %s) AND (users.age = %s)"
        [Value.str "Ann", Value.int 18] =
      substAllPH "SELECT * FROM users WHERE (users.name = %s) AND (users.age = %s)"
        [Value.str "Ann", Value.int 18] :=
  c9_amended_theorem "SELECT * FROM users WHERE (users.name = %s) AND (users.age = %s)"
    [Value.str "Ann", Value.int 18] (by decide)

theorem head?_append_left (l1 l2 : List Char) (h : l1 ≠ []) :
    (l1 ++ l2).head? = l1.head? := by
  cases l1 with
  | nil => exact absurd rfl h
  | cons a t => rfl

/-- Splitting a literal (placeholder-free) segment off the front. -/
theorem litSeg (lit : String) (rest : List Char) (rs : List String)
    (h0 : countPH lit.data = 0)
    (hb : lit.data.getLast? ≠ some '%' ∨ rest.head? ≠ some 's') :
    countPH (lit.data ++ rest) = countPH rest ∧
    substPH (lit.data ++ rest) rs = lit.data ++ substPH rest rs := by
  constructor
  · rw [countPH_append lit.data rest hb, h0, Nat.zero_add]
  · exact substPH_skip lit.data rest rs h0 hb

/-- Splitting a parameter-carrying segment off the front. -/
theorem exprSeg (x rest : List Char) (px q : List Value)
    (hx : countPH x = px.length)
    (hb : x.getLast? ≠ some '%' ∨ rest.head? ≠ some 's') :
    countPH (x ++ rest) = px.length + countPH rest ∧
    substPH (x ++ rest) ((px ++ q).map pyRepr) =
      substPH x (px.map pyRepr) ++ substPH rest (q.map pyRepr) := by
  constructor
  · rw [countPH_append x rest hb, hx]
  · rw [List.map_append]
    exact substPH_split x rest _ _ (by rw [hx]; simp) hb

theorem operatorVal_count (op : Operator) : countPH op.val.data = 0 := by
  cases op <;> decide

theorem binaryOperatorVal_count (op : BinaryOperator) : countPH op.val.data = 0 := by
  cases op <;> decide

theorem orderVal_count (dir : Order) : countPH dir.val.data = 0 := by
  cases dir <;> decide

theorem strEq (a b : String) (h : a.data = b.data) : a = b := congrArg String.mk h

/-- Chaining a literal segment onto an analysed rest. -/
theorem chainLit (lit : String) (rest : List Char) (rs : List String)
    (n : Nat) (irest : List Char)
    (h0 : countPH lit.data = 0)
    (hb : lit.data.getLast? ≠ some '%' ∨ rest.head? ≠ some 's')
    (hc : countPH rest = n)
    (hsub : substPH rest rs = irest) :
    countPH (lit.data ++ rest) = n ∧
    substPH (lit.data ++ rest) rs = lit.data ++ irest := by
  obtain ⟨h1, h2⟩ := litSeg lit rest rs h0 hb
  exact ⟨by rw [h1, hc], by rw [h2, hsub]⟩

/-- Chaining a parameter-carrying segment onto an analysed rest. -/
theorem chainExpr (x rest : List Char) (px q : List Value) (ix irest : List Char)
    (hx : countPH x = px.length)
    (hsb : substPH x (px.map pyRepr) = ix)
    (hb : x.getLast? ≠ some '%' ∨ rest.head? ≠ some 's')
    (hc : countPH rest = q.length)
    (hsub : substPH rest (q.map pyRepr) = irest) :
    countPH (x ++ rest) = (px ++ q).length ∧
    substPH (x ++ rest) ((px ++ q).map pyRepr) = ix ++ irest := by
  obtain ⟨h1, h2⟩ := exprSeg x rest px q hx hb
  refine ⟨by rw [h1, hc, List.length_append], ?_⟩
  rw [h2, hsb, hsub]

theorem motE_expression (sql : String) (params : List Value) :
    MotE (.expression sql params) := by
  intro s p hbal hbuild
  simp only [balanced, beq_iff_eq] at hbal
  simp only [build, Except.ok.injEq, Prod.mk.injEq] at hbuild
  obtain ⟨hs, hp⟩ := hbuild
  subst hs hp
  exact ⟨hbal, rfl⟩

theorem motE_literal (v : Value) : MotE (.literalExpression v) := by
  intro s p hbal hbuild
  cases v with
  | none =>
      simp only [build, Except.ok.injEq, Prod.mk.injEq] at hbuild
      obtain ⟨hs, hp⟩ := hbuild
      subst hs hp
      exact ⟨by decide, rfl⟩
  | int n =>
      simp only [build, Except.ok.injEq, Prod.mk.injEq] at hbuild
      obtain ⟨hs, hp⟩ := hbuild
      subst hs hp
      refine ⟨(show countPH ("%s").data = 1 by decide), ?_⟩
      show Except.ok (pyRepr (Value.int n)) = _
      refine congrArg Except.ok (strEq _ _ ?_)
      show (pyRepr (Value.int n)).data = substPH ['%', 's'] [pyRepr (Value.int n)]
      simp [substPH]
  | str s2 =>
      simp only [build, Except.ok.injEq, Prod.mk.injEq] at hbuild
      obtain ⟨hs, hp⟩ := hbuild
      subst hs hp
      refine ⟨(show countPH ("%s").data = 1 by decide), ?_⟩
      refine congrArg Except.ok (strEq _ _ ?_)
      show (pyRepr (Value.str s2)).data = substPH ['%', 's'] [pyRepr (Value.str s2)]
      simp [substPH]
  | bool b =>
      simp only [build, Except.ok.injEq, Prod.mk.injEq] at hbuild
      obtain ⟨hs, hp⟩ := hbuild
      subst hs hp
      refine ⟨(show countPH ("%s").data = 1 by decide), ?_⟩
      refine congrArg Except.ok (strEq _ _ ?_)
      show (pyRepr (Value.bool b)).data = substPH ['%', 's'] [pyRepr (Value.bool b)]
      simp [substPH]

theorem motE_null : MotE .nullExpression := by
  intro s p hbal hbuild
  simp only [build, Except.ok.injEq, Prod.mk.injEq] at hbuild
  obtain ⟨hs, hp⟩ := hbuild
  subst hs hp
  exact ⟨by decide, rfl⟩

/-- Tail unit: a parameter-carrying segment followed by a literal tail. -/
theorem exprLitTail (x : List Char) (lit : String) (px : List Value) (ix : List Char)
    (hx : countPH x = px.length)
    (hsb : substPH x (px.map pyRepr) = ix)
    (h0 : countPH lit.data = 0)
    (hb : x.getLast? ≠ some '%' ∨ lit.data.head? ≠ some 's') :
    countPH (x ++ lit.data) = px.length ∧
    substPH (x ++ lit.data) (px.map pyRepr) = ix ++ lit.data := by
  constructor
  · rw [countPH_append _ _ hb, hx, h0]
    omega
  · have h := substPH_split x lit.data (px.map pyRepr) [] (by rw [hx]; simp) hb
    rw [List.append_nil] at h
    rw [h, hsb, substPH_nil]

theorem motE_conditionTree (op : String) (l r : Expr) (IHl : MotE l) (IHr : MotE r) :
    MotE (.conditionTree op l r) := by
  intro s p hbal hbuild
  simp only [balanced, Bool.and_eq_true, beq_iff_eq] at hbal
  obtain ⟨⟨hop, hbl⟩, hbr⟩ := hbal
  simp only [build] at hbuild
  cases hl : build l with
  | error e =>
      rw [hl] at hbuild
      simp [errorBindEq] at hbuild
  | ok lr =>
    cases hr : build r with
    | error e =>
        obtain ⟨ls, lp⟩ := lr
        rw [hl, hr] at hbuild
        simp [okBindEq, errorBindEq] at hbuild
    | ok rr =>
        obtain ⟨ls, lp⟩ := lr
        obtain ⟨rs, rp⟩ := rr
        rw [hl, hr] at hbuild
        simp only [okBindEq, Except.ok.injEq, Prod.mk.injEq] at hbuild
        obtain ⟨hs, hp⟩ := hbuild
        subst hs hp
        obtain ⟨hcl, hsl⟩ := IHl ls lp hbl hl
        obtain ⟨hcr, hsr⟩ := IHr rs rp hbr hr
        have t1 := exprLitTail rs.data ")" rp (substPH rs.data (rp.map pyRepr)) hcr rfl
          (by decide) (Or.inr (by decide))
        have t2 := chainLit " (" (rs.data ++ (")").data) (rp.map pyRepr) rp.length
          (substPH rs.data (rp.map pyRepr) ++ (")").data) (by decide) (Or.inl (by decide))
          t1.1 t1.2
        have t3 := chainLit ⟨op.data⟩ ((" (").data ++ (rs.data ++ (")").data)) (rp.map pyRepr)
          rp.length ((" (").data ++ (substPH rs.data (rp.map pyRepr) ++ (")").data)) hop
          (Or.inr (by rw [head?_append_left _ _ (by decide)]; decide)) t2.1 t2.2
        have t4 := chainLit ") " (op.data ++ ((" (").data ++ (rs.data ++ (")").data)))
          (rp.map pyRepr) rp.length
          (op.data ++ ((" (").data ++ (substPH rs.data (rp.map pyRepr) ++ (")").data)))
          (by decide) (Or.inl (by decide)) t3.1 t3.2
        have t5 := chainExpr ls.data
          ((") ").data ++ (op.data ++ ((" (").data ++ (rs.data ++ (")").data)))) lp rp
          (substPH ls.data (lp.map pyRepr))
          ((") ").data ++ (op.data ++ ((" (").data ++ (substPH rs.data (rp.map pyRepr) ++ (")").data))))
          hcl rfl (Or.inr (by rw [head?_append_left _ _ (by decide)]; decide)) t4.1 t4.2
        have t6 := chainLit "("
          (ls.data ++ ((") ").data ++ (op.data ++ ((" (").data ++ (rs.data ++ (")").data)))))
          ((lp ++ rp).map pyRepr) (lp ++ rp).length
          (substPH ls.data (lp.map pyRepr) ++
            ((") ").data ++ (op.data ++ ((" (").data ++ (substPH rs.data (rp.map pyRepr) ++ (")").data)))))
          (by decide) (Or.inl (by decide)) t5.1 t5.2
        have hdata : ("(" ++ ls ++ ") " ++ op ++ " (" ++ rs ++ ")").data =
            ("(").data ++ (ls.data ++ ((") ").data ++ (op.data ++ ((" (").data ++ (rs.data ++ (")").data))))) := by
          simp [strData_append, List.append_assoc]
        constructor
        · rw [hdata, t6.1]
        · simp only [inlineRender, hsl, hsr, okBindEq]
          refine congrArg Except.ok (strEq _ _ ?_)
          show ("(" ++ String.mk (substPH ls.data (lp.map pyRepr)) ++ ") " ++ op ++ " (" ++
              String.mk (substPH rs.data (rp.map pyRepr)) ++ ")").data =
            substPH ("(" ++ ls ++ ") " ++ op ++ " (" ++ rs ++ ")").data ((lp ++ rp).map pyRepr)
          rw [hdata, t6.2]
          simp [strData_append, List.append_assoc]

theorem motE_notCondition (c : Expr) (IHc : MotE c) : MotE (.notCondition c) := by
  intro s p hbal hbuild
  simp only [balanced] at hbal
  simp only [build] at hbuild
  cases hc : build c with
  | error err =>
      rw [hc] at hbuild
      simp [errorBindEq] at hbuild
  | ok r0 =>
      obtain ⟨cs, cp⟩ := r0
      rw [hc] at hbuild
      simp only [okBindEq, Except.ok.injEq, Prod.mk.injEq] at hbuild
      obtain ⟨hs, hp⟩ := hbuild
      subst hs hp
      obtain ⟨hcc, hsc⟩ := IHc cs cp hbal hc
      have t1 := exprLitTail cs.data ")" cp (substPH cs.data (cp.map pyRepr)) hcc rfl
        (by decide) (Or.inr (by decide))
      have t2 := chainLit "NOT (" (cs.data ++ (")").data) (cp.map pyRepr) cp.length
        (substPH cs.data (cp.map pyRepr) ++ (")").data) (by decide) (Or.inl (by decide))
        t1.1 t1.2
      have hdata : ("NOT (" ++ cs ++ ")").data =
          ("NOT (").data ++ (cs.data ++ (")").data) := by
        simp [strData_append, List.append_assoc]
      constructor
      · rw [hdata, t2.1]
      · simp only [inlineRender, hsc, okBindEq]
        refine congrArg Except.ok (strEq _ _ ?_)
        show ("NOT (" ++ String.mk (substPH cs.data (cp.map pyRepr)) ++ ")").data =
          substPH ("NOT (" ++ cs ++ ")").data (cp.map pyRepr)
        rw [hdata, t2.2]
        simp [strData_append, List.append_assoc]

theorem motE_orderExpression (e : Expr) (dir : Order) (IHe : MotE e) :
    MotE (.orderExpression e dir) := by
  intro s p hbal hbuild
  simp only [balanced] at hbal
  simp only [build] at hbuild
  cases he : build e with
  | error err =>
      rw [he] at hbuild
      simp [errorBindEq] at hbuild
  | ok r0 =>
      obtain ⟨es, ep⟩ := r0
      rw [he] at hbuild
      simp only [okBindEq, Except.ok.injEq, Prod.mk.injEq] at hbuild
      obtain ⟨hs, hp⟩ := hbuild
      subst hs hp
      obtain ⟨hce, hse⟩ := IHe es ep hbal he
      have hdv : countPH (" " ++ dir.val).data = 0 := by
        rw [strData_append, countPH_append _ _ (Or.inl (by decide)), orderVal_count]
        decide
      have t1 := exprLitTail es.data (" " ++ dir.val) ep (substPH es.data (ep.map pyRepr))
        hce rfl hdv
        (Or.inr (by rw [strData_append, head?_append_left _ _ (by decide)]; decide))
      have hdata : (es ++ " " ++ dir.val).data = es.data ++ (" " ++ dir.val).data := by
        simp [strData_append, List.append_assoc]
      constructor
      · rw [hdata, t1.1]
      · simp only [inlineRender, hse, okBindEq]
        refine congrArg Except.ok (strEq _ _ ?_)
        show (String.mk (substPH es.data (ep.map pyRepr)) ++ " " ++ dir.val).data =
          substPH (es ++ " " ++ dir.val).data (ep.map pyRepr)
        rw [hdata, t1.2]
        simp [strData_append, List.append_assoc]

theorem motE_aliasExpression (e : Expr) (a : String) (IHe : MotE e) :
    MotE (.aliasExpression e a) := by
  intro s p hbal hbuild
  simp only [balanced, Bool.and_eq_true, beq_iff_eq] at hbal
  obtain ⟨hbe, ha⟩ := hbal
  simp only [build] at hbuild
  cases he : build e with
  | error err =>
      rw [he] at hbuild
      simp [errorBindEq] at hbuild
  | ok r0 =>
      obtain ⟨es, ep⟩ := r0
      rw [he] at hbuild
      simp only [okBindEq, Except.ok.injEq, Prod.mk.injEq] at hbuild
      obtain ⟨hs, hp⟩ := hbuild
      subst hs hp
      obtain ⟨hce, hse⟩ := IHe es ep hbe he
      have hdv : countPH (" AS " ++ a).data = 0 := by
        rw [strData_append, countPH_append _ _ (Or.inl (by decide)), ha]
        decide
      have t1 := exprLitTail es.data (" AS " ++ a) ep (substPH es.data (ep.map pyRepr))
        hce rfl hdv
        (Or.inr (by rw [strData_append, head?_append_left _ _ (by decide)]; decide))
      have hdata : (es ++ " AS " ++ a).data = es.data ++ (" AS " ++ a).data := by
        simp [strData_append, List.append_assoc]
      constructor
      · rw [hdata, t1.1]
      · simp only [inlineRender, hse, okBindEq]
        refine congrArg Except.ok (strEq _ _ ?_)
        show (String.mk (substPH es.data (ep.map pyRepr)) ++ " AS " ++ a).data =
          substPH (es ++ " AS " ++ a).data (ep.map pyRepr)
        rw [hdata, t1.2]
        simp [strData_append, List.append_assoc]

theorem motE_unaryExpression (op : String) (e : Expr) (IHe : MotE e) :
    MotE (.unaryExpression op e) := by
  intro s p hbal hbuild
  simp only [balanced, Bool.and_eq_true, beq_iff_eq] at hbal
  obtain ⟨hop, hbe⟩ := hbal
  simp only [build] at hbuild
  cases he : build e with
  | error err =>
      rw [he] at hbuild
      simp [errorBindEq] at hbuild
  | ok r0 =>
      obtain ⟨es, ep⟩ := r0
      rw [he] at hbuild
      simp only [okBindEq, Except.ok.injEq, Prod.mk.injEq] at hbuild
      obtain ⟨hs, hp⟩ := hbuild
      subst hs hp
      obtain ⟨hce, hse⟩ := IHe es ep hbe he
      have t1 := exprLitTail es.data ")" ep (substPH es.data (ep.map pyRepr)) hce rfl
        (by decide) (Or.inr (by decide))
      have t2 := chainLit "(" (es.data ++ (")").data) (ep.map pyRepr) ep.length
        (substPH es.data (ep.map pyRepr) ++ (")").data) (by decide) (Or.inl (by decide))
        t1.1 t1.2
      have t3 := chainLit ⟨op.data⟩ (("(").data ++ (es.data ++ (")").data)) (ep.map pyRepr)
        ep.length (("(").data ++ (substPH es.data (ep.map pyRepr) ++ (")").data)) hop
        (Or.inr (by rw [head?_append_left _ _ (by decide)]; decide)) t2.1 t2.2
      have hdata : (op ++ "(" ++ es ++ ")").data =
          op.data ++ (("(").data ++ (es.data ++ (")").data)) := by
        simp [strData_append, List.append_assoc]
      constructor
      · rw [hdata]
        exact t3.1
      · simp only [inlineRender, hse, okBindEq]
        refine congrArg Except.ok (strEq _ _ ?_)
        show (op ++ "(" ++ String.mk (substPH es.data (ep.map pyRepr)) ++ ")").data =
          substPH (op ++ "(" ++ es ++ ")").data (ep.map pyRepr)
        rw [hdata]
        rw [show substPH (op.data ++ (("(").data ++ (es.data ++ (")").data))) (ep.map pyRepr) =
          op.data ++ (("(").data ++ (substPH es.data (ep.map pyRepr) ++ (")").data)) from t3.2]
        simp [strData_append, List.append_assoc]

theorem motE_binaryExpression (l : Expr) (op : BinaryOperator) (r : Expr)
    (IHl : MotE l) (IHr : MotE r) : MotE (.binaryExpression l op r) := by
  intro s p hbal hbuild
  simp only [balanced, Bool.and_eq_true] at hbal
  obtain ⟨hbl, hbr⟩ := hbal
  simp only [build] at hbuild
  cases hl : build l with
  | error e =>
      rw [hl] at hbuild
      simp [errorBindEq] at hbuild
  | ok lr =>
    cases hr : build r with
    | error e =>
        obtain ⟨ls, lp⟩ := lr
        rw [hl, hr] at hbuild
        simp [okBindEq, errorBindEq] at hbuild
    | ok rr =>
        obtain ⟨ls, lp⟩ := lr
        obtain ⟨rs, rp⟩ := rr
        rw [hl, hr] at hbuild
        simp only [okBindEq, Except.ok.injEq, Prod.mk.injEq] at hbuild
        obtain ⟨hs, hp⟩ := hbuild
        subst hs hp
        obtain ⟨hcl, hsl⟩ := IHl ls lp hbl hl
        obtain ⟨hcr, hsr⟩ := IHr rs rp hbr hr
        have t1 := exprLitTail rs.data ")" rp (substPH rs.data (rp.map pyRepr)) hcr rfl
          (by decide) (Or.inr (by decide))
        have t2 := chainLit " " (rs.data ++ (")").data) (rp.map pyRepr) rp.length
          (substPH rs.data (rp.map pyRepr) ++ (")").data) (by decide) (Or.inl (by decide))
          t1.1 t1.2
        have t3 := chainLit op.val ((" ").data ++ (rs.data ++ (")").data)) (rp.map pyRepr)
          rp.length ((" ").data ++ (substPH rs.data (rp.map pyRepr) ++ (")").data))
          (binaryOperatorVal_count op)
          (Or.inr (by rw [head?_append_left _ _ (by decide)]; decide)) t2.1 t2.2
        have t4 := chainLit " " (op.val.data ++ ((" ").data ++ (rs.data ++ (")").data)))
          (rp.map pyRepr) rp.length
          (op.val.data ++ ((" ").data ++ (substPH rs.data (rp.map pyRepr) ++ (")").data)))
          (by decide) (Or.inl (by decide)) t3.1 t3.2
        have t5 := chainExpr ls.data
          ((" ").data ++ (op.val.data ++ ((" ").data ++ (rs.data ++ (")").data)))) lp rp
          (substPH ls.data (lp.map pyRepr))
          ((" ").data ++ (op.val.data ++ ((" ").data ++ (substPH rs.data (rp.map pyRepr) ++ (")").data))))
          hcl rfl (Or.inr (by rw [head?_append_left _ _ (by decide)]; decide)) t4.1 t4.2
        have t6 := chainLit "("
          (ls.data ++ ((" ").data ++ (op.val.data ++ ((" ").data ++ (rs.data ++ (")").data)))))
          ((lp ++ rp).map pyRepr) (lp ++ rp).length
          (substPH ls.data (lp.map pyRepr) ++
            ((" ").data ++ (op.val.data ++ ((" ").data ++ (substPH rs.data (rp.map pyRepr) ++ (")").data)))))
          (by decide) (Or.inl (by decide)) t5.1 t5.2
        have hdata : ("(" ++ ls ++ " " ++ op.val ++ " " ++ rs ++ ")").data =
            ("(").data ++ (ls.data ++ ((" ").data ++ (op.val.data ++ ((" ").data ++ (rs.data ++ (")").data))))) := by
          simp [strData_append, List.append_assoc]
        constructor
        · rw [hdata, t6.1]
        · simp only [inlineRender, hsl, hsr, okBindEq]
          refine congrArg Except.ok (strEq _ _ ?_)
          show ("(" ++ String.mk (substPH ls.data (lp.map pyRepr)) ++ " " ++ op.val ++ " " ++
              String.mk (substPH rs.data (rp.map pyRepr)) ++ ")").data =
            substPH ("(" ++ ls ++ " " ++ op.val ++ " " ++ rs ++ ")").data ((lp ++ rp).map pyRepr)
          rw [hdata, t6.2]
          simp [strData_append, List.append_assoc]

theorem motE_condition (l : Expr) (op : Operator) (r : Expr)
    (IHl : MotE l) (IHr : MotE r) : MotE (.condition l op r) := by
  intro s p hbal hbuild
  simp only [balanced, Bool.and_eq_true] at hbal
  obtain ⟨hbl, hbr⟩ := hbal
  simp only [build] at hbuild
  cases hl : build l with
  | error e =>
      rw [hl] at hbuild
      simp [errorBindEq] at hbuild
  | ok lr =>
    cases hr : build r with
    | error e =>
        obtain ⟨ls, lp⟩ := lr
        rw [hl, hr] at hbuild
        simp [okBindEq, errorBindEq] at hbuild
    | ok rr =>
        obtain ⟨ls, lp⟩ := lr
        obtain ⟨rs, rp⟩ := rr
        rw [hl, hr] at hbuild
        simp only [okBindEq] at hbuild
        obtain ⟨hcl, hsl⟩ := IHl ls lp hbl hl
        obtain ⟨hcr, hsr⟩ := IHr rs rp hbr hr
        by_cases hop : op = Operator.isNull ∨ op = Operator.isNotNull
        · rw [if_pos hop] at hbuild
          simp only [Except.ok.injEq, Prod.mk.injEq] at hbuild
          obtain ⟨hs, hp⟩ := hbuild
          subst hs hp
          have hlit : countPH (" " ++ (if op = Operator.isNull then "IS NULL" else "IS NOT NULL")).data = 0 ∧
              (" " ++ (if op = Operator.isNull then "IS NULL" else "IS NOT NULL")).data.head? = some ' ' := by
            split <;> exact ⟨by decide, by decide⟩
          have t1 := exprLitTail ls.data
            (" " ++ (if op = Operator.isNull then "IS NULL" else "IS NOT NULL")) lp
            (substPH ls.data (lp.map pyRepr)) hcl rfl hlit.1
            (Or.inr (by rw [hlit.2]; decide))
          have hdata : (ls ++ " " ++ (if op = Operator.isNull then "IS NULL" else "IS NOT NULL")).data =
              ls.data ++ (" " ++ (if op = Operator.isNull then "IS NULL" else "IS NOT NULL")).data := by
            simp [strData_append, List.append_assoc]
          constructor
          · rw [hdata, t1.1]
          · simp only [inlineRender, hsl, hsr, okBindEq, if_pos hop]
            refine congrArg Except.ok (strEq _ _ ?_)
            show (String.mk (substPH ls.data (lp.map pyRepr)) ++ " " ++
                (if op = Operator.isNull then "IS NULL" else "IS NOT NULL")).data =
              substPH (ls ++ " " ++ (if op = Operator.isNull then "IS NULL" else "IS NOT NULL")).data
                (lp.map pyRepr)
            rw [hdata, t1.2]
            simp [strData_append, List.append_assoc]
        · rw [if_neg hop] at hbuild
          simp only [Except.ok.injEq, Prod.mk.injEq] at hbuild
          obtain ⟨hs, hp⟩ := hbuild
          subst hs hp
          have t2 := chainLit " " rs.data (rp.map pyRepr) rp.length
            (substPH rs.data (rp.map pyRepr)) (by decide) (Or.inl (by decide)) hcr rfl
          have t3 := chainLit op.val ((" ").data ++ rs.data) (rp.map pyRepr) rp.length
            ((" ").data ++ substPH rs.data (rp.map pyRepr)) (operatorVal_count op)
            (Or.inr (by rw [head?_append_left _ _ (by decide)]; decide)) t2.1 t2.2
          have t4 := chainLit " " (op.val.data ++ ((" ").data ++ rs.data)) (rp.map pyRepr)
            rp.length (op.val.data ++ ((" ").data ++ substPH rs.data (rp.map pyRepr)))
            (by decide) (Or.inl (by decide)) t3.1 t3.2
          have t5 := chainExpr ls.data ((" ").data ++ (op.val.data ++ ((" ").data ++ rs.data)))
            lp rp (substPH ls.data (lp.map pyRepr))
            ((" ").data ++ (op.val.data ++ ((" ").data ++ substPH rs.data (rp.map pyRepr))))
            hcl rfl (Or.inr (by rw [head?_append_left _ _ (by decide)]; decide)) t4.1 t4.2
          have hdata : (ls ++ " " ++ op.val ++ " " ++ rs).data =
              ls.data ++ ((" ").data ++ (op.val.data ++ ((" ").data ++ rs.data))) := by
            simp [strData_append, List.append_assoc]
          constructor
          · rw [hdata, t5.1]
          · simp only [inlineRender, hsl, hsr, okBindEq, if_neg hop]
            refine congrArg Except.ok (strEq _ _ ?_)
            show (String.mk (substPH ls.data (lp.map pyRepr)) ++ " " ++ op.val ++ " " ++
                String.mk (substPH rs.data (rp.map pyRepr))).data =
              substPH (ls ++ " " ++ op.val ++ " " ++ rs).data ((lp ++ rp).map pyRepr)
            rw [hdata, t5.2]
            simp [strData_append, List.append_assoc]

theorem motA_nil : MotA .nil := by
  intro ss ps hbal hbuild
  simp only [buildArgs, Except.ok.injEq, Prod.mk.injEq] at hbuild
  obtain ⟨hss, hps⟩ := hbuild
  subst hss hps
  exact ⟨rfl, [], rfl, rfl, rfl⟩

theorem motA_cons (e : Expr) (t : ExprList) (IHe : MotE e) (IHt : MotA t) :
    MotA (.cons e t) := by
  intro ss ps hbal hbuild
  simp only [balancedArgs, Bool.and_eq_true] at hbal
  obtain ⟨hbe, hbt⟩ := hbal
  simp only [buildArgs] at hbuild
  cases he : build e with
  | error err =>
      rw [he] at hbuild
      simp [errorBindEq] at hbuild
  | ok r0 =>
    obtain ⟨s0, p0⟩ := r0
    cases ht : buildArgs t with
    | error err =>
        rw [he, ht] at hbuild
        simp [okBindEq, errorBindEq] at hbuild
    | ok rt =>
        obtain ⟨ss2, ps2⟩ := rt
        rw [he, ht] at hbuild
        simp only [okBindEq, Except.ok.injEq, Prod.mk.injEq] at hbuild
        obtain ⟨hss, hps⟩ := hbuild
        subst hss hps
        obtain ⟨hc0, hs0⟩ := IHe s0 p0 hbe he
        obtain ⟨hct, iss2, hit, hlen, hsubt⟩ := IHt ss2 ps2 hbt ht
        cases ss2 with
        | nil =>
            have hps2 : ps2 = [] := by
              have h0 : (0 : Nat) = ps2.length := hct
              exact List.eq_nil_of_length_eq_zero h0.symm
            have hiss : iss2 = [] := List.eq_nil_of_length_eq_zero (by rw [hlen]; rfl)
            subst hps2
            subst hiss
            have hJ1 : joinComma [s0] = s0 := rfl
            refine ⟨?_, [String.mk (substPH s0.data (p0.map pyRepr))], ?_, rfl, ?_⟩
            · rw [hJ1, hc0, List.append_nil]
            · simp only [inlineArgs, hs0, hit, okBindEq]
            · rw [hJ1, List.append_nil]
              rfl
        | cons s1 st =>
            have hiss2 : iss2 ≠ [] := by
              intro hx
              rw [hx] at hlen
              simp at hlen
            obtain ⟨i1, it, rfl⟩ : ∃ i1 it, iss2 = i1 :: it := by
              cases iss2 with
              | nil => exact absurd rfl hiss2
              | cons a b => exact ⟨a, b, rfl⟩
            have t2 := chainLit ", " (joinComma (s1 :: st)).data (ps2.map pyRepr) ps2.length
              ((joinComma (i1 :: it)).data) (by decide) (Or.inl (by decide)) hct hsubt
            have t3 := chainExpr s0.data ((", ").data ++ (joinComma (s1 :: st)).data) p0 ps2
              (substPH s0.data (p0.map pyRepr))
              ((", ").data ++ (joinComma (i1 :: it)).data)
              hc0 rfl (Or.inr (by rw [head?_append_left _ _ (by decide)]; decide)) t2.1 t2.2
            have hdata : (joinComma (s0 :: s1 :: st)).data =
                s0.data ++ ((", ").data ++ (joinComma (s1 :: st)).data) := by
              show (s0 ++ ", " ++ joinComma (s1 :: st)).data = _
              simp [strData_append, List.append_assoc]
            refine ⟨?_, String.mk (substPH s0.data (p0.map pyRepr)) :: i1 :: it, ?_, ?_, ?_⟩
            · rw [hdata, t3.1]
            · simp only [inlineArgs, hs0, hit, okBindEq]
            · simp only [List.length_cons] at hlen ⊢
              omega
            · rw [hdata, t3.2]
              show _ = (String.mk (substPH s0.data (p0.map pyRepr)) ++ ", " ++ joinComma (i1 :: it)).data
              simp [strData_append, List.append_assoc]

theorem motW_nil : MotW .nil := by
  intro ss ps hbal hbuild
  simp only [buildWhens, Except.ok.injEq, Prod.mk.injEq] at hbuild
  obtain ⟨hss, hps⟩ := hbuild
  subst hss hps
  exact ⟨rfl, [], rfl, rfl, rfl⟩

theorem motW_cons (c v : Expr) (t : WhenList)
    (IHc : MotE c) (IHv : MotE v) (IHt : MotW t) : MotW (.cons c v t) := by
  intro ss ps hbal hbuild
  simp only [balancedWhens, Bool.and_eq_true] at hbal
  obtain ⟨⟨hbc, hbv⟩, hbt⟩ := hbal
  simp only [buildWhens] at hbuild
  cases hc : build c with
  | error e =>
      rw [hc] at hbuild
      simp [errorBindEq] at hbuild
  | ok rc =>
    obtain ⟨cs, cp⟩ := rc
    cases hv : build v with
    | error e =>
        rw [hc, hv] at hbuild
        simp [okBindEq, errorBindEq] at hbuild
    | ok rv =>
      obtain ⟨vs, vp⟩ := rv
      cases ht : buildWhens t with
      | error e =>
          rw [hc, hv, ht] at hbuild
          simp [okBindEq, errorBindEq] at hbuild
      | ok rt =>
        obtain ⟨ss2, ps2⟩ := rt
        rw [hc, hv, ht] at hbuild
        simp only [okBindEq, Except.ok.injEq, Prod.mk.injEq] at hbuild
        obtain ⟨hss, hps⟩ := hbuild
        subst hss hps
        obtain ⟨hcc, hsc⟩ := IHc cs cp hbc hc
        obtain ⟨hcv, hsv⟩ := IHv vs vp hbv hv
        obtain ⟨hct, iss2, hit, hlen, hsubt⟩ := IHt ss2 ps2 hbt ht
        have u1 := chainLit " THEN " vs.data (vp.map pyRepr) vp.length
          (substPH vs.data (vp.map pyRepr)) (by decide) (Or.inl (by decide)) hcv rfl
        have u2 := chainExpr cs.data ((" THEN ").data ++ vs.data) cp vp
          (substPH cs.data (cp.map pyRepr))
          ((" THEN ").data ++ substPH vs.data (vp.map pyRepr))
          hcc rfl (Or.inr (by rw [head?_append_left _ _ (by decide)]; decide)) u1.1 u1.2
        have u3 := chainLit "WHEN " (cs.data ++ ((" THEN ").data ++ vs.data))
          ((cp ++ vp).map pyRepr) (cp ++ vp).length
          (substPH cs.data (cp.map pyRepr) ++
            ((" THEN ").data ++ substPH vs.data (vp.map pyRepr)))
          (by decide) (Or.inl (by decide)) u2.1 u2.2
        have hpart : ("WHEN " ++ cs ++ " THEN " ++ vs).data =
            ("WHEN ").data ++ (cs.data ++ ((" THEN ").data ++ vs.data)) := by
          simp [strData_append, List.append_assoc]
        have hipart : ("WHEN " ++ String.mk (substPH cs.data (cp.map pyRepr)) ++ " THEN " ++
            String.mk (substPH vs.data (vp.map pyRepr))).data =
            ("WHEN ").data ++ (substPH cs.data (cp.map pyRepr) ++
              ((" THEN ").data ++ substPH vs.data (vp.map pyRepr))) := by
          simp [strData_append, List.append_assoc]
        have hpc : countPH ("WHEN " ++ cs ++ " THEN " ++ vs).data = (cp ++ vp).length := by
          rw [hpart]
          exact u3.1
        have hpsu : substPH ("WHEN " ++ cs ++ " THEN " ++ vs).data ((cp ++ vp).map pyRepr) =
            ("WHEN " ++ String.mk (substPH cs.data (cp.map pyRepr)) ++ " THEN " ++
              String.mk (substPH vs.data (vp.map pyRepr))).data := by
          rw [hpart, u3.2, hipart]
        cases ss2 with
        | nil =>
            have hps2 : ps2 = [] := by
              have h0 : (0 : Nat) = ps2.length := hct
              exact List.eq_nil_of_length_eq_zero h0.symm
            have hiss : iss2 = [] := List.eq_nil_of_length_eq_zero (by rw [hlen]; rfl)
            subst hps2
            subst hiss
            have hJ1 : joinSp [("WHEN " ++ cs ++ " THEN " ++ vs)] =
                "WHEN " ++ cs ++ " THEN " ++ vs := rfl
            refine ⟨?_, ["WHEN " ++ String.mk (substPH cs.data (cp.map pyRepr)) ++ " THEN " ++
              String.mk (substPH vs.data (vp.map pyRepr))], ?_, rfl, ?_⟩
            · rw [hJ1, hpc, List.append_nil]
            · simp only [inlineWhens, hsc, hsv, hit, okBindEq]
            · rw [hJ1, List.append_nil, hpsu]
              rfl
        | cons s1 st =>
            have hiss2 : iss2 ≠ [] := by
              intro hx
              rw [hx] at hlen
              simp at hlen
            obtain ⟨i1, it, rfl⟩ : ∃ i1 it, iss2 = i1 :: it := by
              cases iss2 with
              | nil => exact absurd rfl hiss2
              | cons a b => exact ⟨a, b, rfl⟩
            have w2 := chainLit " " (joinSp (s1 :: st)).data (ps2.map pyRepr) ps2.length
              ((joinSp (i1 :: it)).data) (by decide) (Or.inl (by decide)) hct hsubt
            have w3 := chainExpr ("WHEN " ++ cs ++ " THEN " ++ vs).data
              ((" ").data ++ (joinSp (s1 :: st)).data) (cp ++ vp) ps2
              ("WHEN " ++ String.mk (substPH cs.data (cp.map pyRepr)) ++ " THEN " ++
                String.mk (substPH vs.data (vp.map pyRepr))).data
              ((" ").data ++ (joinSp (i1 :: it)).data)
              hpc hpsu (Or.inr (by rw [head?_append_left _ _ (by decide)]; decide)) w2.1 w2.2
            have hdata : (joinSp (("WHEN " ++ cs ++ " THEN " ++ vs) :: s1 :: st)).data =
                ("WHEN " ++ cs ++ " THEN " ++ vs).data ++
                  ((" ").data ++ (joinSp (s1 :: st)).data) := by
              show (("WHEN " ++ cs ++ " THEN " ++ vs) ++ " " ++ joinSp (s1 :: st)).data = _
              simp [strData_append, List.append_assoc]
            refine ⟨?_, ("WHEN " ++ String.mk (substPH cs.data (cp.map pyRepr)) ++ " THEN " ++
              String.mk (substPH vs.data (vp.map pyRepr))) :: i1 :: it, ?_, ?_, ?_⟩
            · rw [hdata, w3.1]
            · simp only [inlineWhens, hsc, hsv, hit, okBindEq]
            · simp only [List.length_cons] at hlen ⊢
              omega
            · rw [hdata, w3.2]
              show _ = (("WHEN " ++ String.mk (substPH cs.data (cp.map pyRepr)) ++ " THEN " ++
                String.mk (substPH vs.data (vp.map pyRepr))) ++ " " ++ joinSp (i1 :: it)).data
              simp [strData_append, List.append_assoc]

theorem pureBindEq {ε α β : Type} (a : α) (f : α → Except ε β) :
    ((pure a : Except ε α) >>= f) = f a := rfl

/-- Substituting parameter reprs yields the empty string iff the template
was empty (reprs are never empty, so a placeholder leaves residue). -/
theorem substPH_map_eq_nil (X : List Char) (ps : List Value)
    (hc : countPH X = ps.length) :
    (substPH X (ps.map pyRepr) = [] ↔ X = []) := by
  cases X with
  | nil => exact ⟨fun _ => rfl, fun _ => rfl⟩
  | cons c t =>
      cases t with
      | nil =>
          have hs : substPH [c] (ps.map pyRepr) = [c] := rfl
          rw [hs]
      | cons c2 t2 =>
          by_cases hph : c = '%' ∧ c2 = 's'
          · obtain ⟨rfl, rfl⟩ := hph
            rw [countPH_ph] at hc
            cases ps with
            | nil => simp at hc
            | cons v vs =>
                rw [List.map_cons, substPH_ph]
                constructor
                · intro h
                  exact absurd (List.append_eq_nil.mp h).1 (pyRepr_ne_nil v)
                · intro h
                  simp at h
          · have hcc : ¬(c = '%' ∧ (c2 :: t2).head? = some 's') := by
              simp only [List.head?_cons, Option.some.injEq]
              exact hph
            rw [(countPH_cons_np c (c2 :: t2) (ps.map pyRepr) hcc).2]
            simp

theorem str_eq_empty_iff (s : String) : s = "" ↔ s.data = [] := by
  constructor
  · intro h
    rw [h]
  · intro h
    exact strEq s "" h

/-- `name ++ '(' ++ argsPart ++ ')'` preserves a placeholder analysis of the
arguments part when the function name is placeholder-free. -/
theorem funcWrapBase (name ap iap : String) (ps : List Value)
    (hname : countPH name.data = 0)
    (hc : countPH ap.data = ps.length)
    (hs : substPH ap.data (ps.map pyRepr) = iap.data) :
    countPH (name ++ "(" ++ ap ++ ")").data = ps.length ∧
    substPH (name ++ "(" ++ ap ++ ")").data (ps.map pyRepr) =
      (name ++ "(" ++ iap ++ ")").data := by
  have t1 := exprLitTail ap.data ")" ps iap.data hc hs (by decide) (Or.inr (by decide))
  have t2 := chainLit "(" (ap.data ++ (")").data) (ps.map pyRepr) ps.length
    (iap.data ++ (")").data) (by decide) (Or.inl (by decide)) t1.1 t1.2
  have t3 := chainLit name (("(").data ++ (ap.data ++ (")").data)) (ps.map pyRepr) ps.length
    (("(").data ++ (iap.data ++ (")").data)) hname
    (Or.inr (by rw [head?_append_left _ _ (by decide)]; decide)) t2.1 t2.2
  have hdata : (name ++ "(" ++ ap ++ ")").data =
      name.data ++ (("(").data ++ (ap.data ++ (")").data)) := by
    simp [strData_append, List.append_assoc]
  have hidata : (name ++ "(" ++ iap ++ ")").data =
      name.data ++ (("(").data ++ (iap.data ++ (")").data)) := by
    simp [strData_append, List.append_assoc]
  exact ⟨by rw [hdata, t3.1], by rw [hdata, t3.2, hidata]⟩

/-- Appending a FILTER clause extends the analysis with the filter
condition's parameters. -/
theorem filterWrap (prev iprev fs ifs : String) (ps fp : List Value)
    (hc : countPH prev.data = ps.length)
    (hs : substPH prev.data (ps.map pyRepr) = iprev.data)
    (hcf : countPH fs.data = fp.length)
    (hsf : substPH fs.data (fp.map pyRepr) = ifs.data) :
    countPH (prev ++ " FILTER (WHERE " ++ fs ++ ")").data = (ps ++ fp).length ∧
    substPH (prev ++ " FILTER (WHERE " ++ fs ++ ")").data ((ps ++ fp).map pyRepr) =
      (iprev ++ " FILTER (WHERE " ++ ifs ++ ")").data := by
  have t1 := exprLitTail fs.data ")" fp ifs.data hcf hsf (by decide) (Or.inr (by decide))
  have t2 := chainLit " FILTER (WHERE " (fs.data ++ (")").data) (fp.map pyRepr) fp.length
    (ifs.data ++ (")").data) (by decide) (Or.inl (by decide)) t1.1 t1.2
  have t3 := chainExpr prev.data ((" FILTER (WHERE ").data ++ (fs.data ++ (")").data)) ps fp
    iprev.data ((" FILTER (WHERE ").data ++ (ifs.data ++ (")").data))
    hc hs (Or.inr (by rw [head?_append_left _ _ (by decide)]; decide)) t2.1 t2.2
  have hdata : (prev ++ " FILTER (WHERE " ++ fs ++ ")").data =
      prev.data ++ ((" FILTER (WHERE ").data ++ (fs.data ++ (")").data)) := by
    simp [strData_append, List.append_assoc]
  have hidata : (iprev ++ " FILTER (WHERE " ++ ifs ++ ")").data =
      iprev.data ++ ((" FILTER (WHERE ").data ++ (ifs.data ++ (")").data)) := by
    simp [strData_append, List.append_assoc]
  exact ⟨by rw [hdata, t3.1], by rw [hdata, t3.2, hidata]⟩

/-- Appending a raw (placeholder-free) OVER clause changes neither the
placeholder count nor the parameters. -/
theorem overWrap (prev iprev o : String) (ps : List Value)
    (hC : countPH prev.data = ps.length)
    (hS : substPH prev.data (ps.map pyRepr) = iprev.data)
    (ho : countPH o.data = 0) :
    countPH (prev ++ " OVER (" ++ o ++ ")").data = ps.length ∧
    substPH (prev ++ " OVER (" ++ o ++ ")").data (ps.map pyRepr) =
      (iprev ++ " OVER (" ++ o ++ ")").data := by
  have hL : (" OVER (" ++ o ++ ")").data =
      (" OVER (").data ++ (o.data ++ (")").data) := by
    simp [strData_append, List.append_assoc]
  have h1 : countPH (o.data ++ (")").data) = 0 := by
    rw [countPH_append _ _ (Or.inr (by decide)), ho]
    decide
  have h0 : countPH (" OVER (" ++ o ++ ")").data = 0 := by
    rw [hL, countPH_append _ _ (Or.inl (by decide)), h1]
    decide
  have hhead : (" OVER (" ++ o ++ ")").data.head? = some ' ' := by
    rw [hL, head?_append_left _ _ (by decide)]
    rfl
  have t := exprLitTail prev.data (" OVER (" ++ o ++ ")") ps iprev.data hC hS h0
    (Or.inr (by rw [hhead]; decide))
  have hdata : (prev ++ " OVER (" ++ o ++ ")").data =
      prev.data ++ (" OVER (" ++ o ++ ")").data := by
    simp [strData_append, List.append_assoc]
  have hidata : (iprev ++ " OVER (" ++ o ++ ")").data =
      iprev.data ++ (" OVER (" ++ o ++ ")").data := by
    simp [strData_append, List.append_assoc]
  exact ⟨by rw [hdata, t.1], by rw [hdata, t.2, hidata]⟩

/-- The DISTINCT prefix is applied to the built args part iff it is applied
to the inline-rendered args part, and preserves the analysis. -/
theorem distinctPart (ap iap : String) (ps : List Value) (d : Bool)
    (hc : countPH ap.data = ps.length)
    (hs : substPH ap.data (ps.map pyRepr) = iap.data) :
    countPH (if d ∧ ap ≠ "" then "DISTINCT " ++ ap else ap).data = ps.length ∧
    substPH (if d ∧ ap ≠ "" then "DISTINCT " ++ ap else ap).data (ps.map pyRepr) =
      (if d ∧ iap ≠ "" then "DISTINCT " ++ iap else iap).data := by
  have hemp : iap = "" ↔ ap = "" := by
    rw [str_eq_empty_iff, str_eq_empty_iff, ← hs]
    exact substPH_map_eq_nil _ _ hc
  by_cases hd : d ∧ ap ≠ ""
  · have hd2 : d ∧ iap ≠ "" := ⟨hd.1, fun hx => hd.2 (hemp.mp hx)⟩
    rw [if_pos hd, if_pos hd2]
    have t := chainLit "DISTINCT " ap.data (ps.map pyRepr) ps.length iap.data
      (by decide) (Or.inl (by decide)) hc hs
    constructor
    · rw [strData_append]
      exact t.1
    · rw [strData_append, strData_append]
      exact t.2
  · have hd2 : ¬(d ∧ iap ≠ "") := fun hx => hd ⟨hx.1, fun he => hx.2 (hemp.mpr he)⟩
    rw [if_neg hd, if_neg hd2]
    exact ⟨hc, hs⟩

theorem motE_functionExpression (name : String) (args : ExprList) (distinct : Bool)
    (fc : OptExpr) (oc : Option String) (IHa : MotA args) (IHf : MotO fc) :
    MotE (.functionExpression name args distinct fc oc) := by
  intro s p hbal hbuild
  simp only [balanced, Bool.and_eq_true, beq_iff_eq] at hbal
  obtain ⟨⟨⟨hname, hba⟩, hbf⟩, hoc⟩ := hbal
  simp only [build] at hbuild
  cases ha : buildArgs args with
  | error e =>
      rw [ha] at hbuild
      simp [errorBindEq] at hbuild
  | ok ra =>
    obtain ⟨argSqls, argParams⟩ := ra
    rw [ha] at hbuild
    simp only [okBindEq] at hbuild
    obtain ⟨hca, iss, hia, hlen, hsuba⟩ := IHa argSqls argParams hba ha
    have hap := distinctPart (joinComma argSqls) (joinComma iss) argParams distinct hca hsuba
    have hbase := funcWrapBase name
      (if distinct ∧ joinComma argSqls ≠ "" then "DISTINCT " ++ joinComma argSqls
        else joinComma argSqls)
      (if distinct ∧ joinComma iss ≠ "" then "DISTINCT " ++ joinComma iss
        else joinComma iss)
      argParams hname hap.1 hap.2
    cases fc with
    | none =>
        cases oc with
        | none =>
            simp only [pureBindEq, Except.ok.injEq, Prod.mk.injEq] at hbuild
            obtain ⟨hs, hp⟩ := hbuild
            subst hs hp
            refine ⟨hbase.1, ?_⟩
            simp only [inlineRender, hia, okBindEq, pureBindEq]
            exact congrArg Except.ok (strEq _ _ hbase.2.symm)
        | some o =>
            simp only [pureBindEq, Except.ok.injEq, Prod.mk.injEq] at hbuild
            obtain ⟨hs, hp⟩ := hbuild
            subst hs hp
            have hoco : countPH o.data = 0 := by simpa using hoc
            have hov := overWrap _ _ o argParams hbase.1 hbase.2 hoco
            refine ⟨hov.1, ?_⟩
            simp only [inlineRender, hia, okBindEq, pureBindEq]
            exact congrArg Except.ok (strEq _ _ hov.2.symm)
    | some c =>
        have hbc : balanced c = true := hbf
        have IH : MotE c := IHf
        simp only [okBindEq, pureBindEq] at hbuild
        cases hf : build c with
        | error e =>
            rw [hf] at hbuild
            simp [errorBindEq, okBindEq] at hbuild
        | ok rf =>
            obtain ⟨fs, fp⟩ := rf
            rw [hf] at hbuild
            simp only [okBindEq, pureBindEq] at hbuild
            obtain ⟨hcf, hsf⟩ := IH fs fp hbc hf
            have hfil := filterWrap
              (name ++ "(" ++ (if distinct ∧ joinComma argSqls ≠ "" then
                "DISTINCT " ++ joinComma argSqls else joinComma argSqls) ++ ")")
              (name ++ "(" ++ (if distinct ∧ joinComma iss ≠ "" then
                "DISTINCT " ++ joinComma iss else joinComma iss) ++ ")")
              fs (String.mk (substPH fs.data (fp.map pyRepr))) argParams fp
              hbase.1 hbase.2 hcf rfl
            cases oc with
            | none =>
                simp only [Except.ok.injEq, Prod.mk.injEq] at hbuild
                obtain ⟨hs, hp⟩ := hbuild
                subst hs hp
                refine ⟨hfil.1, ?_⟩
                simp only [inlineRender, hia, hsf, okBindEq, pureBindEq]
                exact congrArg Except.ok (strEq _ _ hfil.2.symm)
            | some o =>
                simp only [Except.ok.injEq, Prod.mk.injEq] at hbuild
                obtain ⟨hs, hp⟩ := hbuild
                subst hs hp
                have hoco : countPH o.data = 0 := by simpa using hoc
                have hov := overWrap _ _ o (argParams ++ fp) hfil.1 hfil.2 hoco
                refine ⟨hov.1, ?_⟩
                simp only [inlineRender, hia, hsf, okBindEq, pureBindEq]
                exact congrArg Except.ok (strEq _ _ hov.2.symm)

theorem joinSp_cons_ne (x : String) (l : List String) (h : l ≠ []) :
    joinSp (x :: l) = x ++ " " ++ joinSp l := by
  cases l with
  | nil => exact absurd rfl h
  | cons a b => rfl

theorem joinSp_append_ne (l1 l2 : List String) (h2 : l2 ≠ []) :
    l1 ≠ [] → joinSp (l1 ++ l2) = joinSp l1 ++ " " ++ joinSp l2 := by
  induction l1 with
  | nil =>
      intro h
      exact absurd rfl h
  | cons x t ih =>
      intro _
      cases t with
      | nil =>
          rw [List.cons_append, List.nil_append, joinSp_cons_ne x l2 h2]
          rfl
      | cons y u =>
          rw [List.cons_append, joinSp_cons_ne x ((y :: u) ++ l2) (by simp),
            ih (by simp), joinSp_cons_ne x (y :: u) (by simp)]
          simp [String.append_assoc]

/-- A non-empty WHEN list always produces a non-empty parts list. -/
theorem buildWhens_cons_ne (c v : Expr) (t : WhenList) (ss : List String)
    (ps : List Value) (h : buildWhens (.cons c v t) = .ok (ss, ps)) : ss ≠ [] := by
  simp only [buildWhens] at h
  cases hc : build c with
  | error e =>
      rw [hc] at h
      simp [errorBindEq] at h
  | ok rc =>
    obtain ⟨cs, cp⟩ := rc
    cases hv : build v with
    | error e =>
        rw [hc, hv] at h
        simp [okBindEq, errorBindEq] at h
    | ok rv =>
      obtain ⟨vs, vp⟩ := rv
      cases ht : buildWhens t with
      | error e =>
          rw [hc, hv, ht] at h
          simp [okBindEq, errorBindEq] at h
      | ok rt =>
          obtain ⟨ss2, ps2⟩ := rt
          rw [hc, hv, ht] at h
          simp only [okBindEq, Except.ok.injEq, Prod.mk.injEq] at h
          obtain ⟨hss, _⟩ := h
          rw [← hss]
          simp

theorem motE_caseExpression (whens : WhenList) (els : OptExpr)
    (IHw : MotW whens) (IHe : MotO els) : MotE (.caseExpression whens els) := by
  intro s p hbal hbuild
  cases whens with
  | nil =>
      simp only [build] at hbuild
      simp at hbuild
  | cons c v t =>
    simp only [balanced, Bool.and_eq_true] at hbal
    obtain ⟨hbw, hbe⟩ := hbal
    simp only [build] at hbuild
    cases hw : buildWhens (.cons c v t) with
    | error e =>
        rw [hw] at hbuild
        simp [errorBindEq] at hbuild
    | ok rw0 =>
      obtain ⟨parts, params⟩ := rw0
      rw [hw] at hbuild
      simp only [okBindEq, pureBindEq] at hbuild
      obtain ⟨hcw, iparts, hitW, hlenW, hsubw⟩ := IHw parts params hbw hw
      have hpne : parts ≠ [] := buildWhens_cons_ne c v t parts params hw
      have hipne : iparts ≠ [] := by
        intro hx
        rw [hx] at hlenW
        have h0 : parts.length = 0 := by simpa using hlenW.symm
        exact hpne (List.eq_nil_of_length_eq_zero h0)
      have hEND : ((" ").data ++ ("END").data : List Char) = (" END").data := rfl
      cases els with
      | none =>
          simp only [Except.ok.injEq, Prod.mk.injEq] at hbuild
          obtain ⟨hs, hp⟩ := hbuild
          subst hs hp
          have e1 : (["CASE"] ++ parts ++ ["END"] : List String) =
              "CASE" :: (parts ++ ["END"]) := by simp
          have e2 : joinSp ("CASE" :: (parts ++ ["END"])) =
              "CASE" ++ " " ++ joinSp (parts ++ ["END"]) :=
            joinSp_cons_ne _ _ (by simp)
          have e3 : joinSp (parts ++ ["END"]) = joinSp parts ++ " " ++ joinSp ["END"] :=
            joinSp_append_ne parts ["END"] (by simp) hpne
          have e4 : joinSp (["END"] : List String) = "END" := rfl
          have t1 := exprLitTail (joinSp parts).data " END" params (joinSp iparts).data
            hcw hsubw (by decide) (Or.inr (by decide))
          have t2 := chainLit " " ((joinSp parts).data ++ (" END").data)
            (params.map pyRepr) params.length ((joinSp iparts).data ++ (" END").data)
            (by decide) (Or.inl (by decide)) t1.1 t1.2
          have t3 := chainLit "CASE" ((" ").data ++ ((joinSp parts).data ++ (" END").data))
            (params.map pyRepr) params.length
            ((" ").data ++ ((joinSp iparts).data ++ (" END").data))
            (by decide) (Or.inl (by decide)) t2.1 t2.2
          have hdata : (joinSp (["CASE"] ++ parts ++ ["END"])).data =
              ("CASE").data ++ ((" ").data ++ ((joinSp parts).data ++ (" END").data)) := by
            rw [e1, e2, e3, e4, ← hEND]
            simp [strData_append, List.append_assoc]
          have hidata : (joinSp (["CASE"] ++ iparts ++ ["END"])).data =
              ("CASE").data ++ ((" ").data ++ ((joinSp iparts).data ++ (" END").data)) := by
            rw [show (["CASE"] ++ iparts ++ ["END"] : List String) =
                "CASE" :: (iparts ++ ["END"]) from by simp,
              joinSp_cons_ne _ _ (by simp),
              joinSp_append_ne iparts ["END"] (by simp) hipne, e4, ← hEND]
            simp [strData_append, List.append_assoc]
          constructor
          · rw [hdata, t3.1]
          · simp only [inlineRender, hitW, okBindEq, pureBindEq]
            refine congrArg Except.ok (strEq _ _ ?_)
            show (joinSp (["CASE"] ++ iparts ++ ["END"])).data =
              substPH (joinSp (["CASE"] ++ parts ++ ["END"])).data (params.map pyRepr)
            rw [hidata, hdata, t3.2]
      | some e =>
          have IHe2 : MotE e := IHe
          have hbe2 : balanced e = true := hbe
          simp only [okBindEq, pureBindEq] at hbuild
          cases he : build e with
          | error err =>
              rw [he] at hbuild
              simp [errorBindEq, okBindEq] at hbuild
          | ok re =>
            obtain ⟨es, ep⟩ := re
            rw [he] at hbuild
            simp only [okBindEq, pureBindEq, Except.ok.injEq, Prod.mk.injEq] at hbuild
            obtain ⟨hs, hp⟩ := hbuild
            subst hs hp
            obtain ⟨hce, hse⟩ := IHe2 es ep hbe2 he
            have g1 : (["CASE"] ++ (parts ++ ["ELSE " ++ es]) ++ ["END"] : List String) =
                "CASE" :: (parts ++ (["ELSE " ++ es] ++ ["END"])) := by simp
            have g2 : joinSp ("CASE" :: (parts ++ (["ELSE " ++ es] ++ ["END"]))) =
                "CASE" ++ " " ++ joinSp (parts ++ (["ELSE " ++ es] ++ ["END"])) :=
              joinSp_cons_ne _ _ (by simp)
            have g3 : joinSp (parts ++ (["ELSE " ++ es] ++ ["END"])) =
                joinSp parts ++ " " ++ joinSp (["ELSE " ++ es] ++ ["END"]) :=
              joinSp_append_ne parts _ (by simp) hpne
            have g4 : joinSp ((["ELSE " ++ es] ++ ["END"]) : List String) =
                ("ELSE " ++ es) ++ " " ++ "END" := rfl
            have f1 := exprLitTail es.data " END" ep (substPH es.data (ep.map pyRepr))
              hce rfl (by decide) (Or.inr (by decide))
            have f2 := chainLit "ELSE " (es.data ++ (" END").data) (ep.map pyRepr) ep.length
              (substPH es.data (ep.map pyRepr) ++ (" END").data)
              (by decide) (Or.inl (by decide)) f1.1 f1.2
            have f3 := chainLit " " (("ELSE ").data ++ (es.data ++ (" END").data))
              (ep.map pyRepr) ep.length
              (("ELSE ").data ++ (substPH es.data (ep.map pyRepr) ++ (" END").data))
              (by decide) (Or.inl (by decide)) f2.1 f2.2
            have f4 := chainExpr (joinSp parts).data
              ((" ").data ++ (("ELSE ").data ++ (es.data ++ (" END").data))) params ep
              (joinSp iparts).data
              ((" ").data ++ (("ELSE ").data ++ (substPH es.data (ep.map pyRepr) ++ (" END").data)))
              hcw hsubw (Or.inr (by rw [head?_append_left _ _ (by decide)]; decide)) f3.1 f3.2
            have f5 := chainLit " "
              ((joinSp parts).data ++ ((" ").data ++ (("ELSE ").data ++ (es.data ++ (" END").data))))
              ((params ++ ep).map pyRepr) (params ++ ep).length
              ((joinSp iparts).data ++ ((" ").data ++ (("ELSE ").data ++
                (substPH es.data (ep.map pyRepr) ++ (" END").data))))
              (by decide) (Or.inl (by decide)) f4.1 f4.2
            have f6 := chainLit "CASE"
              ((" ").data ++ ((joinSp parts).data ++ ((" ").data ++ (("ELSE ").data ++
                (es.data ++ (" END").data)))))
              ((params ++ ep).map pyRepr) (params ++ ep).length
              ((" ").data ++ ((joinSp iparts).data ++ ((" ").data ++ (("ELSE ").data ++
                (substPH es.data (ep.map pyRepr) ++ (" END").data)))))
              (by decide) (Or.inl (by decide)) f5.1 f5.2
            have hdata2 : (joinSp (["CASE"] ++ (parts ++ ["ELSE " ++ es]) ++ ["END"])).data =
                ("CASE").data ++ ((" ").data ++ ((joinSp parts).data ++ ((" ").data ++
                  (("ELSE ").data ++ (es.data ++ (" END").data))))) := by
              rw [g1, g2, g3, g4, ← hEND]
              simp [strData_append, List.append_assoc]
            have hidata2 : (joinSp (["CASE"] ++ (iparts ++
                ["ELSE " ++ String.mk (substPH es.data (ep.map pyRepr))]) ++ ["END"])).data =
                ("CASE").data ++ ((" ").data ++ ((joinSp iparts).data ++ ((" ").data ++
                  (("ELSE ").data ++ (substPH es.data (ep.map pyRepr) ++ (" END").data))))) := by
              rw [show (["CASE"] ++ (iparts ++
                  ["ELSE " ++ String.mk (substPH es.data (ep.map pyRepr))]) ++ ["END"] :
                    List String) =
                  "CASE" :: (iparts ++ (["ELSE " ++ String.mk (substPH es.data (ep.map pyRepr))] ++
                    ["END"])) from by simp,
                joinSp_cons_ne _ _ (by simp),
                joinSp_append_ne iparts _ (by simp) hipne,
                show joinSp ((["ELSE " ++ String.mk (substPH es.data (ep.map pyRepr))] ++ ["END"]) :
                    List String) =
                  ("ELSE " ++ String.mk (substPH es.data (ep.map pyRepr))) ++ " " ++ "END" from rfl,
                ← hEND]
              simp [strData_append, List.append_assoc]
            constructor
            · rw [hdata2, f6.1]
            · simp only [inlineRender, hitW, hse, okBindEq, pureBindEq]
              refine congrArg Except.ok (strEq _ _ ?_)
              show (joinSp (["CASE"] ++ (iparts ++
                  ["ELSE " ++ String.mk (substPH es.data (ep.map pyRepr))]) ++ ["END"])).data =
                substPH (joinSp (["CASE"] ++ (parts ++ ["ELSE " ++ es]) ++ ["END"])).data
                  ((params ++ ep).map pyRepr)
              rw [hidata2, hdata2, f6.2]

mutual
/-- Every balanced expression satisfies the placeholder/parameter
correspondence: the structural induction over the mutual `Expr` family,
dispatching to the per-constructor case lemmas. -/
theorem build_cs : (e : Expr) → MotE e
  | .expression sql params => motE_expression sql params
  | .literalExpression v => motE_literal v
  | .nullExpression => motE_null
  | .aliasExpression e a => motE_aliasExpression e a (build_cs e)
  | .binaryExpression l op r => motE_binaryExpression l op r (build_cs l) (build_cs r)
  | .unaryExpression op e => motE_unaryExpression op e (build_cs e)
  | .functionExpression name args d fc oc =>
      motE_functionExpression name args d fc oc (buildArgs_cs args) (buildOpt_cs fc)
  | .caseExpression whens els =>
      motE_caseExpression whens els (buildWhens_cs whens) (buildOpt_cs els)
  | .condition l op r => motE_condition l op r (build_cs l) (build_cs r)
  | .conditionTree op l r => motE_conditionTree op l r (build_cs l) (build_cs r)
  | .notCondition c => motE_notCondition c (build_cs c)
  | .orderExpression e d => motE_orderExpression e d (build_cs e)

theorem buildArgs_cs : (es : ExprList) → MotA es
  | .nil => motA_nil
  | .cons e t => motA_cons e t (build_cs e) (buildArgs_cs t)

theorem buildWhens_cs : (ws : WhenList) → MotW ws
  | .nil => motW_nil
  | .cons c v t => motW_cons c v t (build_cs c) (build_cs v) (buildWhens_cs t)

theorem buildOpt_cs : (oe : OptExpr) → MotO oe
  | .none => trivial
  | .some e => build_cs e
end

/-- C7: counterexample. The claim quantifies over every expression of the
closed variant set, but a raw `Expression` fragment carries whatever
parameter list it was constructed with, independent of its placeholder
count: `Expression('users.id', [1])` builds successfully to a fragment
with zero placeholder occurrences and a one-element parameter list. -/
theorem c7_counterexample :
    ∃ (e : Expr) (s : String) (p : List Value),
      build e = .ok (s, p) ∧ countPH s.data ≠ p.length := by
  refine ⟨.expression "users.id" [.int 1], "users.id", [.int 1], rfl, ?_⟩
  decide

/-- C7 (amended): for every expression all of whose raw fragments are
balanced (fragment placeholder count matching its attached parameter list
— true of everything the pgantics API itself constructs), `build()`
returns a SQL fragment with exactly as many placeholder occurrences as
returned parameters, and substituting each parameter's repr into the
placeholders left-to-right reproduces the inline rendering in which every
parameter sits at its own syntactic position — i.e. parameter order
matches placeholder occurrence order. -/
theorem c7_amended_theorem (e : Expr) (s : String) (p : List Value)
    (hbal : balanced e = true) (hbuild : build e = .ok (s, p)) :
    countPH s.data = p.length ∧
    inlineRender e = .ok (String.mk (substPH s.data (p.map pyRepr))) :=
  build_cs e s p hbal hbuild

/-- C7 witness: `users.age IN (%s, %s)` with parameters `[18, 21]` — two
placeholders, two parameters, and the substitution yields the inline
rendering `users.age IN (18, 21)`. -/
theorem c7_witness :
    countPH ("users.age IN (%s, %s)").data = 2 ∧
    inlineRender ((Expr.expression "users.age" []).in_ (.seqArg [.int 18, .int 21])) =
      .ok (String.mk (substPH ("users.age IN (%s, %s)").data
        ([Value.int 18, Value.int 21].map pyRepr))) :=
  c7_amended_theorem ((Expr.expression "users.age" []).in_ (.seqArg [.int 18, .int 21]))
    "users.age IN (%s, %s)" [.int 18, .int 21] (by decide) rfl

end Pgantics
